import Mathlib

/-!
Shallow embedding of the `clapr` command-line argument parser and runner
(package `github.com/sebuckler/clapr`): the data model (`Arg`, `Command`),
the built-in argument binders (src/unnamed/part_005), the syntax rule
engine, the token walker and the execution driver (src/runner.go), and the
default help renderer (src/helper.go).

Modelling conventions:
* Go pointers to `Arg` definitions become indices into an arena
  (`List Arg`); the one in-place mutation the parser performs
  (`posixOpt` setting `a.Required = true`) becomes a functional update of
  that arena, threaded through every function.
* Go's `parsedArgContext.last` pointer always aliases the most recently
  appended element of `parsedArgContext.parsed` (both are only written by
  `updateArgCtx`), so it is modelled as an index into that list.
* Go slice indexing that can be out of range (`cmd.args[argpos]` in
  `parseArgRules`) is modelled with `List.get?`; an out-of-range access
  makes the whole run end in the `crashed` outcome (Go: runtime panic).
  Pointer dereferences, which cannot fail in the Go code, use `getD`
  with a default.
* Go byte indices coincide with character indices on ASCII input; tokens
  are modelled as `String` with character-based operations, and the
  `unicode.IsLetter` / `unicode.IsNumber` classes are modelled by their
  ASCII fragments, which agree with Go on ASCII names.
* `strconv.ParseFloat` (IEEE-754) is not embedded; the two float binders
  take the coercion function as a parameter.
* Command actions and the cancellation signal are modelled by traces: the
  executor records each invocation `(command, operands)`, and `ctx.Err()`
  is an oracle mapping the index of a poll to its result.
-/

namespace Clapr

instance {ε α : Type} [DecidableEq ε] [DecidableEq α] : DecidableEq (Except ε α) := by
  intro x y
  cases x <;> cases y
  case error.error a b =>
    exact if h : a = b then .isTrue (by rw [h]) else .isFalse (by simp [h])
  case ok.ok a b =>
    exact if h : a = b then .isTrue (by rw [h]) else .isFalse (by simp [h])
  case error.ok a b => exact .isFalse (by simp)
  case ok.error a b => exact .isFalse (by simp)

/-- A single-quote character as a string (used by Go error formatting). -/
def sq : String := (Char.ofNat 39).toString

/-- Go `strings.HasPrefix`. -/
def goHasPre (s p : String) : Bool := p.data.isPrefixOf s.data

/-- Go `strings.TrimPrefix`. -/
def goTrimPre (s p : String) : String :=
  if goHasPre s p then String.mk (s.data.drop p.data.length) else s

/-- Go `strings.HasSuffix` (used via `strings.TrimSuffix`). -/
def goHasSuf (s p : String) : Bool := p.data.isSuffixOf s.data

/-- Go `strings.TrimSuffix`. -/
def goTrimSuf (s p : String) : String :=
  if goHasSuf s p then String.mk (s.data.take (s.data.length - p.data.length)) else s

/-- Split a character list at every occurrence of `c` (separator dropped). -/
def splitCharList (c : Char) : List Char → List (List Char)
  | [] => [[]]
  | x :: xs =>
    let r := splitCharList c xs
    if x = c then [] :: r
    else
      match r with
      | [] => [[x]]
      | y :: ys => (x :: y) :: ys

/-- Go `strings.Split` with a one-character separator (the only separators
the source uses are `"="`, `"-"` and `","`). -/
def goSplit (s : String) (c : Char) : List String :=
  (splitCharList c s.data).map String.mk

/-- Go `strings.Join`. -/
def goJoin (xs : List String) (sep : String) : String := String.intercalate sep xs

/-- Go `unicode.IsLetter`, ASCII fragment. -/
def goIsLetter (c : Char) : Bool := c.isAlpha

/-- Go `unicode.IsNumber`, ASCII fragment. -/
def goIsNumber (c : Char) : Bool := c.isDigit

/-- Go `unicode.IsSpace`, ASCII fragment (used by `strings.TrimSpace`). -/
def goIsSpace (c : Char) : Bool :=
  c = ' ' || c = '\t' || c = '\n' || c.toNat = 11 || c.toNat = 12 || c = '\r'

/-- Go `strings.TrimSpace`. -/
def goTrimSpace (s : String) : String :=
  String.mk (((s.data.dropWhile goIsSpace).reverse.dropWhile goIsSpace).reverse)

/-- Decimal digit run to a natural number; `none` if empty or non-digit. -/
def goDigits : List Char → Option Nat
  | [] => none
  | l => go l 0
where
  go : List Char → Nat → Option Nat
    | [], acc => some acc
    | c :: cs, acc =>
      if c.isDigit then go cs (acc * 10 + (c.toNat - 48)) else none

/-- Go `strconv.ParseInt(s, 10, 64)` (also `strconv.Atoi` on a 64-bit
platform): optional sign, decimal digits, 64-bit range check. -/
def goParseInt64 (s : String) : Option Int :=
  match s.data with
  | '+' :: rest => (goDigits rest).bind fun n =>
      if n ≤ 2 ^ 63 - 1 then some (Int.ofNat n) else none
  | '-' :: rest => (goDigits rest).bind fun n =>
      if n ≤ 2 ^ 63 then some (-(Int.ofNat n)) else none
  | l => (goDigits l).bind fun n =>
      if n ≤ 2 ^ 63 - 1 then some (Int.ofNat n) else none

/-- Go `strconv.Atoi` (64-bit `int`). -/
def goAtoi (s : String) : Option Int := goParseInt64 s

/-- Go `strconv.ParseUint(s, 10, 0/64)`: no sign permitted, decimal digits,
64-bit range check. -/
def goParseUint64 (s : String) : Option Nat :=
  (goDigits s.data).bind fun n => if n ≤ 2 ^ 64 - 1 then some n else none

/-- The conversion-error message shared by every built-in binder:
Go `fmt.Errorf("invalid option-argument: '%s' for option: %s", v, arg)`. -/
def convMsg (v arg : String) : String :=
  "invalid option-argument: " ++ sq ++ v ++ sq ++ " for option: " ++ arg

/-! ### Built-in binders (src/unnamed/part_005)

Each Go `Bind` method receives the raw matched token and the resolved
value, and mutates a pointed-to target; here the target is an explicit
argument and the updated target is returned in `Except`. -/

/-- `boolArgBinder.Bind`: errors when a value is supplied, otherwise sets
the target to `true` (bool arguments are set by existence). -/
def boolArgBinderBind (arg val : String) (t : Bool) : Except String Bool :=
  if val ≠ "" then .error (convMsg val arg)
  else
    let _ := t
    .ok true

/-- `float64Binder.Bind`; `strconv.ParseFloat(·, 64)` is the parameter
`parseFloat` (IEEE-754 parsing is outside the embedding). -/
def float64BinderBind {F : Type} (parseFloat : String → Option F)
    (arg val : String) (t : F) : Except String F :=
  if val = "" then .ok t
  else
    match parseFloat val with
    | none => .error (convMsg val arg)
    | some x => .ok x

/-- `float64ListBinder.Bind`: split on `,`, `TrimSpace` each element,
reject empty elements, fail on the first bad element (message carries the
whole resolved value). -/
def float64ListBinderBind {F : Type} (parseFloat : String → Option F)
    (arg val : String) (t : List F) : Except String (List F) :=
  if val = "" then .ok t
  else
    match go (goSplit val ',') with
    | none => .error (convMsg val arg)
    | some xs => .ok xs
where
  go : List String → Option (List F)
    | [] => some []
    | x :: xs =>
      match parseFloat (goTrimSpace x) with
      | none => none
      | some v => if x = "" then none else (go xs).map (v :: ·)

/-- `intBinder.Bind`. -/
def intBinderBind (arg val : String) (t : Int) : Except String Int :=
  if val = "" then .ok t
  else
    match goAtoi val with
    | none => .error (convMsg val arg)
    | some n => .ok n

/-- `intListBinder.Bind`: split on `,`, `strconv.Atoi` each element, fail
on the first bad element (message carries that element). -/
def intListBinderBind (arg val : String) (t : List Int) : Except String (List Int) :=
  if val = "" then .ok t
  else go arg (goSplit val ',')
where
  go (arg : String) : List String → Except String (List Int)
    | [] => .ok []
    | x :: xs =>
      match goAtoi x with
      | none => .error (convMsg x arg)
      | some n => (go arg xs).map (n :: ·)

/-- `int64Binder.Bind` (`strconv.ParseInt(val, 10, 64)`). -/
def int64BinderBind (arg val : String) (t : Int) : Except String Int :=
  if val = "" then .ok t
  else
    match goParseInt64 val with
    | none => .error (convMsg val arg)
    | some n => .ok n

/-- `int64ListBinder.Bind`. -/
def int64ListBinderBind (arg val : String) (t : List Int) : Except String (List Int) :=
  if val = "" then .ok t
  else go arg (goSplit val ',')
where
  go (arg : String) : List String → Except String (List Int)
    | [] => .ok []
    | x :: xs =>
      match goParseInt64 x with
      | none => .error (convMsg x arg)
      | some n => (go arg xs).map (n :: ·)

/-- `stringBinder.Bind` (never fails; ignores the raw token). -/
def stringBinderBind (val : String) (t : String) : Except String String :=
  if val = "" then .ok t else .ok val

/-- `stringListBinder.Bind` (never fails). -/
def stringListBinderBind (val : String) (t : List String) : Except String (List String) :=
  if val = "" then .ok t else .ok (goSplit val ',')

/-- `uintBinder.Bind` (`strconv.ParseUint(val, 10, 0)`, 64-bit `uint`). -/
def uintBinderBind (arg val : String) (t : Nat) : Except String Nat :=
  if val = "" then .ok t
  else
    match goParseUint64 val with
    | none => .error (convMsg val arg)
    | some n => .ok n

/-- `uintListBinder.Bind`. -/
def uintListBinderBind (arg val : String) (t : List Nat) : Except String (List Nat) :=
  if val = "" then .ok t
  else go arg (goSplit val ',')
where
  go (arg : String) : List String → Except String (List Nat)
    | [] => .ok []
    | x :: xs =>
      match goParseUint64 x with
      | none => .error (convMsg x arg)
      | some n => (go arg xs).map (n :: ·)

/-- `uint64Binder.Bind` (`strconv.ParseUint(val, 10, 64)`). -/
def uint64BinderBind (arg val : String) (t : Nat) : Except String Nat :=
  if val = "" then .ok t
  else
    match goParseUint64 val with
    | none => .error (convMsg val arg)
    | some n => .ok n

/-- `uint64ListBinder.Bind`. -/
def uint64ListBinderBind (arg val : String) (t : List Nat) : Except String (List Nat) :=
  if val = "" then .ok t
  else go arg (goSplit val ',')
where
  go (arg : String) : List String → Except String (List Nat)
    | [] => .ok []
    | x :: xs =>
      match goParseUint64 x with
      | none => .error (convMsg x arg)
      | some n => (go arg xs).map (n :: ·)

/-! ### Data model (src/unnamed/part_005, src/command.go, src/runner.go) -/

/-- The syntax style (`ArgSyntax` in Go): `GNU` long options or
POSIX-2017.1. (Go's type is an open `int`; only these two values select a
rule chain, any other is the "unsupported argument parsing syntax"
configuration error, which no claim concerns.) -/
inductive ArgStyle where
  | gnu
  | posix
deriving DecidableEq, Repr

/-- The kind of a built-in binder attached to an `Arg`. The two float
binders are omitted at this level (their coercion is outside the
embedding); no claim attaches a float binder to a command tree. -/
inductive BinderK where
  | boolB
  | intB
  | intListB
  | i64B
  | i64ListB
  | strB
  | strListB
  | uintB
  | uintListB
  | u64B
  | u64ListB
deriving DecidableEq, Repr

/-- The error the corresponding Go `Bind` call returns, if any (the
target update is modelled by the binder functions above; a `Bind` error
never depends on the target, so a fixed target is passed). -/
def BinderK.bindErr (k : BinderK) (arg val : String) : Option String :=
  let errOf {α : Type} : Except String α → Option String
    | .error m => some m
    | .ok _ => none
  match k with
  | .boolB => errOf (boolArgBinderBind arg val false)
  | .intB => errOf (intBinderBind arg val 0)
  | .intListB => errOf (intListBinderBind arg val [])
  | .i64B => errOf (int64BinderBind arg val 0)
  | .i64ListB => errOf (int64ListBinderBind arg val [])
  | .strB => errOf (stringBinderBind val "")
  | .strListB => errOf (stringListBinderBind val [])
  | .uintB => errOf (uintBinderBind arg val 0)
  | .uintListB => errOf (uintListBinderBind arg val [])
  | .u64B => errOf (uint64BinderBind arg val 0)
  | .u64ListB => errOf (uint64ListBinderBind arg val [])

/-- An argument definition (`Arg`). `shortName` is a Go `rune`, zero when
unset. -/
structure Arg where
  binder : Option BinderK
  isHelp : Bool
  name : String
  shortName : Char
  repeatable : Bool
  required : Bool
  usage : String
deriving DecidableEq, Repr

/-- The zero `Arg` (Go zero value), used as the `getD` default for
pointer dereferences that cannot fail in Go. -/
def defaultArg : Arg :=
  { binder := none, isHelp := false, name := "", shortName := Char.ofNat 0,
    repeatable := false, required := false, usage := "" }

instance : Inhabited Arg := ⟨defaultArg⟩

/-- Dereference an `*Arg` (arena index). -/
def getArg (arena : List Arg) (i : Nat) : Arg := arena.getD i defaultArg

/-- A command after registration (`Command`): its `Args` become arena
indices, `Run ≠ nil` becomes `hasRun`, `helper ≠ nil` becomes
`hasHelper`, and the `parent`/`subcmds` pointers become indices into the
command list. -/
structure CmdD where
  argIdxs : List Nat
  name : String
  hasRun : Bool
  usage : String
  hasHelper : Bool
  parent : Option Nat
  subcmds : List Nat
deriving DecidableEq, Repr

/-- The zero `CmdD`, `getD` default for command-pointer dereferences. -/
def defaultCmd : CmdD :=
  { argIdxs := [], name := "", hasRun := false, usage := "",
    hasHelper := false, parent := none, subcmds := [] }

instance : Inhabited CmdD := ⟨defaultCmd⟩

/-- A runner (`runner` struct): the registered command arena (root at
index 0), the argument-definition arena as built, the argument vector and
the syntax style. -/
structure RunnerSt where
  cmds : List CmdD
  arena0 : List Arg
  argv : List String
  style : ArgStyle
deriving DecidableEq, Repr

/-- Dereference a `*Command` (index into the command list). -/
def getCmd (st : RunnerSt) (i : Nat) : CmdD := st.cmds.getD i defaultCmd

/-- `parsedArg`: `argdef` is an arena index. -/
structure ParsedArg where
  argdef : Nat
  raw : String
  val : String
deriving DecidableEq, Repr

instance : Inhabited ParsedArg := ⟨⟨0, "", ""⟩⟩

/-- `parsedCmd`. -/
structure ParsedCmd where
  args : List String
  cmddef : Nat
  index : Nat
  operands : List String
  parsedargs : List ParsedArg
  subcmds : List Nat
deriving DecidableEq, Repr

instance : Inhabited ParsedCmd := ⟨⟨[], 0, 0, [], [], []⟩⟩

/-- `parsedCmdContext`. -/
structure PCmdCtx where
  parsed : List ParsedCmd
  path : List Nat
  terminated : Bool
deriving DecidableEq, Repr

/-- `parsedArgContext`. `last` is the index into `parsed` aliased by the
Go `last` pointer (`none` for `nil`); the `terminated` field exists in
the Go struct but is never written. -/
structure PArgCtx where
  argIdxs : List Nat
  last : Option Nat
  operands : List String
  parsed : List ParsedArg
  terminated : Bool
deriving DecidableEq, Repr

/-- Errors crossing function boundaries in the Go code. -/
inductive GoErr where
  | help (text : String)
  | term (index : Nat)
  | emsg (s : String)
  | wrapHelp (m : String) (help : String)
deriving DecidableEq, Repr

/-- `errors.As(err, &errhelp)`: `*ErrHelp` is found directly or through
the `%w` wrapping of `fmt.Errorf("%v\n%w", err, &ErrHelp{...})`. -/
def GoErr.isHelpErr : GoErr → Bool
  | .help _ => true
  | .wrapHelp _ _ => true
  | _ => false

/-- `err.Error()`: the `%v` text of an error. -/
def GoErr.msgText : GoErr → String
  | .help t => t
  | .term _ => "arguments terminated"
  | .emsg s => s
  | .wrapHelp m h => m ++ "\n" ++ h

/-- Result of running Go code that may return an error or hit a runtime
panic (index out of range). -/
inductive GoRes (α : Type) where
  | ok (a : α)
  | err (e : GoErr)
  | crashed
deriving DecidableEq, Repr

/-- `isBoolArg` on a dereferenced definition: the attached binder is a
`*boolArgBinder`. (Go also nil-checks the `*Arg` itself; every call site
dereferences a non-nil pointer.) -/
def isBoolArgD (a : Arg) : Bool := a.binder = some .boolB

/-- `updateArgCtx`: allocate a fresh `parsedArg`, append it, point `last`
at it. -/
def updateArgCtx (a : Nat) (raw : String) (ctx : PArgCtx) : PArgCtx :=
  { ctx with
    last := some ctx.parsed.length
    parsed := ctx.parsed ++ [⟨a, raw, ""⟩] }

/-- Write through the `ctx.last` pointer (`ctx.last.val = v`). Call sites
only do this when `last` aliases a live element. -/
def setLastVal (ctx : PArgCtx) (v : String) : PArgCtx :=
  match ctx.last with
  | none => ctx
  | some j =>
    match ctx.parsed.get? j with
    | none => ctx
    | some p => { ctx with parsed := ctx.parsed.set j { p with val := v } }

/-- `isValidRptArg`: no already-parsed non-repeatable definition has this
name (long or short form). -/
def isValidRptArg (arena : List Arg) (parsed : List ParsedArg) (opt : String) : Bool :=
  !(parsed.any fun p =>
    let d := getArg arena p.argdef
    (opt = d.name || opt = d.shortName.toString) && !d.repeatable)

/-- `isValidPosixName`. -/
def isValidPosixName (long : String) (short : Char) : Bool :=
  let lngvalid := long ≠ "" && long.data.length = 1 &&
    (goIsLetter (long.data.headD (Char.ofNat 0)) || goIsNumber (long.data.headD (Char.ofNat 0)))
  let shvalid := goIsLetter short || goIsNumber short
  lngvalid || shvalid

/-- `validateReqArg` (returns the missing-option-argument error, if any). -/
def validateReqArg (arena : List Arg) (p : ParsedArg) : Option GoErr :=
  let d := getArg arena p.argdef
  if !isBoolArgD d && d.required && p.val = "" then
    some (.emsg ("missing option-argument for required option: " ++ d.name))
  else none

/-! ### Syntax rule engine (src/runner.go) -/

/-- Output of one classification rule (`argRuleFn`): the `(bool, error)`
return value plus the final values of everything the rule can mutate
(`*arg`, the parse context, the definition arena). -/
structure RuleOut where
  consumed : Bool
  err : Option GoErr
  arg : String
  ctx : PArgCtx
  arena : List Arg
deriving DecidableEq, Repr

/-- A classification rule: arena, `*arg`, token index, context. -/
def RuleFn : Type := List Arg → String → Nat → PArgCtx → RuleOut

/-- A rule output that neither consumes nor errs nor mutates. -/
def passOut (arena : List Arg) (arg : String) (ctx : PArgCtx) : RuleOut :=
  { consumed := false, err := none, arg := arg, ctx := ctx, arena := arena }

/-- `gnuTerminated`: `--` raises termination when the previous parsed
argument exists, is not required and has no value yet. -/
def gnuTerminated : RuleFn := fun arena arg i ctx =>
  let lastOk :=
    match ctx.last with
    | none => false
    | some j =>
      let p := ctx.parsed.getD j default
      !(getArg arena p.argdef).required && p.val = ""
  if arg = "--" && lastOk then
    { consumed := true, err := some (.term i), arg := arg, ctx := ctx, arena := arena }
  else passOut arena arg ctx

/-- `posixTerminated`: `--` raises termination when it is the first token
or the previous parsed argument is boolean or already has a value. -/
def posixTerminated : RuleFn := fun arena arg i ctx =>
  let lastOk :=
    match ctx.last with
    | none => false
    | some j =>
      let p := ctx.parsed.getD j default
      isBoolArgD (getArg arena p.argdef) || p.val ≠ ""
  if arg = "--" && (i = 0 || lastOk) then
    { consumed := true, err := some (.term i), arg := arg, ctx := ctx, arena := arena }
  else passOut arena arg ctx

/-- `validGnuOpt`: the first token of a command's group must start with a
dash. -/
def validGnuOpt : RuleFn := fun arena arg i ctx =>
  if i = 0 && !goHasPre arg "-" && !goHasPre arg "--" then
    { passOut arena arg ctx with err := some (.emsg ("invalid option: " ++ arg)) }
  else passOut arena arg ctx

/-- `validPosixOpt`. -/
def validPosixOpt : RuleFn := fun arena arg i ctx =>
  if i = 0 && !goHasPre arg "-" then
    { passOut arena arg ctx with err := some (.emsg ("invalid option: " ++ arg)) }
  else passOut arena arg ctx

/-- The long-name character-class check in `gnuOpt`: every character of
every `-`-separated component of the declared name passes
`isValidPosixName(string(ch), ch)`. -/
def gnuNameValid (name : String) : Bool :=
  (goSplit name '-').all fun part =>
    part.data.all fun ch => isValidPosixName ch.toString ch

/-- The search loop of `gnuOpt` over `ctx.args`. -/
def gnuOptFind (arena : List Arg) (arg opt optarg : String) (ctx : PArgCtx) :
    List Nat → RuleOut
  | [] => passOut arena arg ctx
  | ai :: rest =>
    let a := getArg arena ai
    if opt ≠ a.name then gnuOptFind arena arg opt optarg ctx rest
    else if !gnuNameValid a.name then
      { passOut arena arg ctx with err := some (.emsg ("invalid option name: --" ++ opt)) }
    else if !isValidRptArg arena ctx.parsed opt then
      { passOut arena arg ctx with err := some (.emsg ("non-repeatable option: --" ++ opt)) }
    else
      { consumed := true, err := none, arg := arg,
        ctx := setLastVal (updateArgCtx ai arg ctx) optarg, arena := arena }

/-- `gnuOpt`: long-option match with optional inline `=` value. -/
def gnuOpt : RuleFn := fun arena arg _ ctx =>
  if !goHasPre arg "--" || arg = "--" then passOut arena arg ctx
  else
    let opt0 := goTrimPre arg "--"
    let optparts := goSplit opt0 '='
    let opt := optparts.headD ""
    let optarg := goJoin optparts.tail "="
    gnuOptFind arena arg opt optarg ctx ctx.argIdxs

/-- `gnuOptArg`: bind a separate token as the value of the most recent
long-option parsed argument; an optional long option must use `=`. -/
def gnuOptArg : RuleFn := fun arena arg _ ctx =>
  match ctx.last with
  | none => passOut arena arg ctx
  | some j =>
    match ctx.parsed.get? j with
    | none => passOut arena arg ctx
    | some p =>
      if !goHasPre p.raw "--" then passOut arena arg ctx
      else if !(getArg arena p.argdef).required && p.val = "" then
        { passOut arena arg ctx with
          err := some (.emsg ("optional option-argument " ++ sq ++ arg ++ sq ++
            " must be provided with option " ++ sq ++ "--" ++ (getArg arena p.argdef).name ++
            sq ++ " separated by " ++ sq ++ "=" ++ sq)) }
      else
        { consumed := true, err := none, arg := arg,
          ctx := { ctx with parsed := ctx.parsed.set j { p with val := arg } },
          arena := arena }

/-- `posixOperand`: once the most recent parsed argument carries a value,
further tokens are operands. -/
def posixOperand : RuleFn := fun arena arg _ ctx =>
  let lastHasVal :=
    match ctx.last with
    | none => false
    | some j => (ctx.parsed.getD j default).val ≠ ""
  if lastHasVal then
    { consumed := true, err := none, arg := arg,
      ctx := { ctx with operands := ctx.operands ++ [arg] }, arena := arena }
  else passOut arena arg ctx

/-- `posixOptArg`: bind this entire token as the value of the most recent
parsed argument. -/
def posixOptArg : RuleFn := fun arena arg _ ctx =>
  match ctx.last with
  | none => passOut arena arg ctx
  | some j =>
    match ctx.parsed.get? j with
    | none => passOut arena arg ctx
    | some p =>
      { consumed := true, err := none, arg := arg,
        ctx := { ctx with parsed := ctx.parsed.set j { p with val := arg } },
        arena := arena }

/-- The inner `for _, a := range ctx.args` search of `posixOpt`: the first
definition matching this cluster character, and the value the loop leaves
in `parsed` when no definition matches (`false` unless `ctx.args` is
empty, in which case `parsed` keeps its previous value). -/
def posixFindArg (arena : List Arg) (name : String) (ch : Char) (prev : Bool) :
    List Nat → Option Nat × Bool
  | [] => (none, prev)
  | ai :: rest =>
    let a := getArg arena ai
    if name ≠ a.name && ch ≠ a.shortName then posixFindArg arena name ch false rest
    else (some ai, prev)

/-- The character scan of `posixOpt` (`for i, ch := range opt`). `cs` is
the remaining suffix of `opt` starting at position `i`; `rest`, `argStr`
and `parsed` are the loop-carried `rest`, `*arg` and `parsed` variables. -/
def posixOptLoop (opt : String) : List Char → Nat → String → String → Bool →
    List Arg → PArgCtx → RuleOut
  | [], _, _, argStr, parsed, arena, ctx =>
    { consumed := parsed, err := none, arg := argStr, ctx := ctx, arena := arena }
  | ch :: cs, i, rest, argStr, parsed, arena, ctx =>
    let name := ch.toString
    match posixFindArg arena name ch parsed ctx.argIdxs with
    | (some ai, _) =>
      let a := getArg arena ai
      if !isValidPosixName a.name a.shortName then
        { consumed := false, err := some (.emsg ("invalid option name: -" ++ opt)),
          arg := argStr, ctx := ctx, arena := arena }
      else if !isValidRptArg arena ctx.parsed name then
        { consumed := false, err := some (.emsg ("non-repeatable option: -" ++ opt)),
          arg := argStr, ctx := ctx, arena := arena }
      else
        let arena' := arena.set ai { a with required := true }
        let ctx' := updateArgCtx ai argStr ctx
        let rest' := goTrimPre rest name
        let argStr' := rest
        if !isBoolArgD a && (ch :: cs).length > 1 then
          { consumed := true, err := none, arg := argStr',
            ctx := setLastVal ctx' (String.mk cs), arena := arena' }
        else
          posixOptLoop opt cs (i + 1) rest' argStr' true arena' ctx'
    | (none, parsed') =>
      if i = 0 && !parsed' then
        { consumed := parsed', err := none, arg := argStr, ctx := ctx, arena := arena }
      else if !parsed' then
        { consumed := true, err := none, arg := argStr,
          ctx := setLastVal ctx argStr, arena := arena }
      else
        posixOptLoop opt cs (i + 1) rest argStr parsed' arena ctx

/-- `posixOpt`: short-option cluster scan. -/
def posixOpt : RuleFn := fun arena arg _ ctx =>
  if !goHasPre arg "-" || arg.data.length < 2 || arg = "--" then passOut arena arg ctx
  else
    let opt := goTrimPre arg "-"
    posixOptLoop opt opt.data 0 opt arg false arena ctx

/-- `getGnuRules`. -/
def gnuRules : List RuleFn :=
  [gnuTerminated, posixTerminated, validGnuOpt, gnuOpt,
   posixOperand, gnuOptArg, posixOpt, posixOptArg]

/-- `getPosixRules`. -/
def posixRules : List RuleFn :=
  [posixTerminated, validPosixOpt, posixOpt, posixOperand, posixOptArg]

/-- `getRules` (the `switch r.syntax` of `parseArgs`). -/
def getRules : ArgStyle → List RuleFn
  | .gnu => gnuRules
  | .posix => posixRules

/-- The inner `for _, rule := range rulefn` chain of `parseArgRules`: run
rules in order on one token, stopping at the first that errs or consumes;
the mutated `*arg`/context/arena flow into later rules. -/
def runRules (arena : List Arg) (arg : String) (i : Nat) (ctx : PArgCtx) :
    List RuleFn → RuleOut
  | [] => passOut arena arg ctx
  | f :: fs =>
    let o := f arena arg i ctx
    if o.err.isSome || o.consumed then o
    else runRules o.arena o.arg i o.ctx fs

/-! ### Help rendering (src/helper.go)

The runner only installs the default template (`newHelper(cmd, nil)`,
from `configureArgs`); `AddHelper` overrides are outside the embedding
and used by no claim. -/

/-- `strings.Repeat(" ", n)`. -/
def spaces (n : Nat) : String := String.mk (List.replicate n ' ')

/-- The parent-chain walk of `getHelpTemplate`. The Go loop appends
`h.cmd.parent.Name` (the immediate parent's name) once per ancestor, so
only the chain length matters; fuel bounds the walk (the Go loop would
not terminate on a parent cycle, which registration cannot produce). -/
def parentDepth (cmds : List CmdD) : Nat → Option Nat → Nat
  | _, none => 0
  | 0, some _ => 0
  | fuel + 1, some p => 1 + parentDepth cmds fuel (cmds.getD p defaultCmd).parent

/-- The option label built for one `Arg` by `getHelpTemplate` (before the
`", "` suffix trim). -/
def optLabel (style : ArgStyle) (o : Arg) : String :=
  let ln := if o.shortName.toNat > 0 then "-" ++ o.shortName.toString ++ ", " else ""
  let ln :=
    match style with
    | .gnu =>
      if o.name ≠ "" then
        (if ln = "" then "-" ++ (o.name.data.headD (Char.ofNat 0)).toString ++ ", " else ln)
          ++ "--" ++ o.name
      else ln
    | .posix =>
      if ln = "" && o.name ≠ "" then "-" ++ (o.name.data.headD (Char.ofNat 0)).toString
      else ln
  goTrimSuf ln ", "

/-- The column-aligned option lines of `getHelpTemplate` (4-space indent
between lines, label padded to the longest label plus 4). -/
def renderOptLines (longest : Nat) : List (String × String) → String
  | [] => ""
  | [l] => l.1 ++ spaces (longest - l.1.data.length + 4) ++ l.2 ++ "\n"
  | l :: rest =>
    l.1 ++ spaces (longest - l.1.data.length + 4) ++ l.2 ++ "\n" ++ spaces 4 ++
      renderOptLines longest rest

/-- `helper.getHelpTemplate`. -/
def helpTemplate (st : RunnerSt) (arena : List Arg) (ci : Nat) : String :=
  let c := getCmd st ci
  let depth := parentDepth st.cmds st.cmds.length c.parent
  let parentName :=
    match c.parent with
    | none => ""
    | some p => (getCmd st p).name
  let parents := List.replicate depth parentName
  let parentuse := if parents.length > 0 then goJoin parents " " ++ " " else ""
  let opts := (c.argIdxs.map (getArg arena)).filter fun a => !a.isHelp
  let s1 := "Usage:\n    " ++ parentuse ++ c.name
  let s2 :=
    if c.subcmds.length > 0 then " [command] <options>\n\nCommands:\n"
    else if opts.length > 0 then " <options>" else ""
  let s3 := String.join (c.subcmds.map fun si =>
    spaces 4 ++ "[" ++ (getCmd st si).name ++ "]  " ++ (getCmd st si).usage)
  let s4 := if opts.length > 0 then "\n\nOptions:\n    " else ""
  let labels := opts.map fun o => (optLabel st.style o, o.usage)
  let longest := labels.foldl (fun m l => Nat.max m l.1.data.length) 0
  s1 ++ s2 ++ s3 ++ s4 ++ renderOptLines longest labels

/-- `runner.getHelpMsg`: the helper's rendered text, or `""` when the
command has no helper installed. -/
def getHelpMsg (st : RunnerSt) (arena : List Arg) (ci : Nat) : String :=
  if (getCmd st ci).hasHelper then helpTemplate st arena ci else ""

/-! ### Bind phase and per-command driver (src/runner.go) -/

/-- One binder invocation observed by the bind phase: the parsed
argument's definition index, the raw token and the resolved value passed
to `Bind`. -/
def BindEv : Type := Nat × String × String

instance : DecidableEq BindEv := by
  unfold BindEv
  infer_instance

instance : Repr BindEv := by
  unfold BindEv
  infer_instance

/-- `runner.bindArgs`: walk the parsed arguments in match order; a help
argument short-circuits with `ErrHelp`; then required-ness validation;
then the binder invocation (recorded in the trace), whose error aborts. -/
def bindArgs (st : RunnerSt) (arena : List Arg) (cmd : ParsedCmd) :
    List BindEv × Option GoErr :=
  go cmd.parsedargs
where
  go : List ParsedArg → List BindEv × Option GoErr
    | [] => ([], none)
    | p :: rest =>
      let d := getArg arena p.argdef
      if d.isHelp then ([], some (.help (getHelpMsg st arena cmd.cmddef)))
      else
        match validateReqArg arena p with
        | some e => ([], some e)
        | none =>
          match d.binder with
          | none => go rest
          | some k =>
            match k.bindErr p.raw p.val with
            | some m => ([(p.argdef, p.raw, p.val)], some (.emsg m))
            | none =>
              let (t, r) := go rest
              ((p.argdef, p.raw, p.val) :: t, r)

/-- Result of the token loop of `parseArgRules`: the final context, arena
and run-terminated flag; a rule error (with the arena at that point); or
a panic from the out-of-range residual-slice access in the termination
handler. -/
inductive ALoopRes where
  | ok (ctx : PArgCtx) (arena : List Arg) (term : Bool)
  | err (e : GoErr) (arena : List Arg)
  | crashed
deriving DecidableEq, Repr

/-- The `for i, arg := range cmd.args` loop of `parseArgRules`: `toks` is
the remaining residual tokens, `i` the current index, `term` the shared
`cmdctx.terminated` flag. On an `errTerm` from the chain the driver sets
`terminated`, computes `argpos = cmd.index + errterm.index`, reads
`cmd.args[argpos]` (panic when out of range) and, if that token is longer
than one character, appends `argv[argpos+1:]` to the operands. -/
def argLoop (rules : List RuleFn) (argv : List String) (cmdIndex : Nat)
    (cmdArgs : List String) : List String → Nat → PArgCtx → List Arg → Bool → ALoopRes
  | [], _, ctx, arena, term => .ok ctx arena term
  | tok :: rest, i, ctx, arena, term =>
    if term then .ok ctx arena term
    else
      let o := runRules arena tok i ctx rules
      match o.err with
      | some (.term j) =>
        let argpos := cmdIndex + j
        match cmdArgs.get? argpos with
        | none => .crashed
        | some t =>
          let ctx' :=
            if t.data.length > 1 then
              { o.ctx with operands := o.ctx.operands ++ argv.drop (argpos + 1) }
            else o.ctx
          if o.consumed then argLoop rules argv cmdIndex cmdArgs rest (i + 1) ctx' o.arena true
          else .err (.emsg ("unknown argument provided: " ++ o.arg)) o.arena
      | some e => .err e o.arena
      | none =>
        if o.consumed then argLoop rules argv cmdIndex cmdArgs rest (i + 1) o.ctx o.arena term
        else .err (.emsg ("unknown argument provided: " ++ o.arg)) o.arena

/-- What `parseArgRules` leaves behind for one command when no rule-level
error occurred: the completed `parsedCmd`, the arena, the terminated
flag, the binder-invocation trace and the result of `bindArgs`. -/
structure CmdParseOut where
  cmd : ParsedCmd
  arena : List Arg
  terminated : Bool
  binds : List BindEv
  err : Option GoErr
deriving DecidableEq, Repr

/-- Result of `parseArgRules` for one command. -/
inductive CPRes where
  | ok (out : CmdParseOut)
  | rerr (e : GoErr) (arena : List Arg)
  | crashed
deriving DecidableEq, Repr

/-- `runner.parseArgRules` (via `parseArgs`): fresh per-command context,
token loop, then `bindArgs`. -/
def parseArgRulesF (st : RunnerSt) (rules : List RuleFn) (arena : List Arg)
    (term : Bool) (cmd : ParsedCmd) : CPRes :=
  let ctx0 : PArgCtx :=
    { argIdxs := (getCmd st cmd.cmddef).argIdxs, last := none,
      operands := [], parsed := [], terminated := false }
  match argLoop rules st.argv cmd.index cmd.args cmd.args 0 ctx0 arena term with
  | .crashed => .crashed
  | .err e arena' => .rerr e arena'
  | .ok ctx arena' term' =>
    let cmd' := { cmd with parsedargs := ctx.parsed, operands := ctx.operands }
    let (evs, berr) := bindArgs st arena' cmd'
    .ok { cmd := cmd', arena := arena', terminated := term', binds := evs, err := berr }

/-- Result of `runner.parse`: the list of successfully parsed commands
(`r.parsed`), the final arena, the binder-invocation trace, the commands
whose residual tokens were parsed (`visited`, in order) and the final
terminated flag. -/
structure ParseOut where
  res : GoRes (List ParsedCmd)
  arena : List Arg
  binds : List BindEv
  visited : List Nat
  terminated : Bool
deriving DecidableEq, Repr

/-- The command loop of `runner.parse`: stop at the terminated flag;
parse and bind each command; a help error propagates as-is, any other
error is wrapped with the command's help text
(`fmt.Errorf("%v\n%w", err, &ErrHelp{...})`). -/
def parseLoop (st : RunnerSt) (rules : List RuleFn) :
    List ParsedCmd → List Arg → Bool → List ParsedCmd → List BindEv → List Nat → ParseOut
  | [], arena, term, acc, binds, vis =>
    { res := .ok acc, arena := arena, binds := binds, visited := vis, terminated := term }
  | cmd :: rest, arena, term, acc, binds, vis =>
    if term then
      { res := .ok acc, arena := arena, binds := binds, visited := vis, terminated := term }
    else
      match parseArgRulesF st rules arena term cmd with
      | .crashed =>
        { res := .crashed, arena := arena, binds := binds,
          visited := vis ++ [cmd.cmddef], terminated := true }
      | .rerr e arena' =>
        let e' := if e.isHelpErr then e else .wrapHelp e.msgText (getHelpMsg st arena' cmd.cmddef)
        { res := .err e', arena := arena', binds := binds,
          visited := vis ++ [cmd.cmddef], terminated := term }
      | .ok out =>
        match out.err with
        | some e =>
          let e' :=
            if e.isHelpErr then e
            else .wrapHelp e.msgText (getHelpMsg st out.arena cmd.cmddef)
          { res := .err e', arena := out.arena, binds := binds ++ out.binds,
            visited := vis ++ [cmd.cmddef], terminated := out.terminated }
        | none =>
          parseLoop st rules rest out.arena out.terminated (acc ++ [out.cmd])
            (binds ++ out.binds) (vis ++ [cmd.cmddef])

/-! ### Token walker (src/runner.go `parseCommands`) -/

/-- Append a raw token to the currently open (last) parsed command
(`last.args = append(last.args, a)`). -/
def appendTokToLast : List ParsedCmd → String → List ParsedCmd
  | [], _ => []
  | [p], tok => [{ p with args := p.args ++ [tok] }]
  | p :: ps, tok => p :: appendTokToLast ps tok

/-- The ancestor walk of `updatePath`, collecting every ancestor's
declared subcommands (fuel bounds the parent chain). -/
def ancSubs (cmds : List CmdD) : Nat → Option Nat → List Nat
  | _, none => []
  | 0, some _ => []
  | fuel + 1, some p =>
    (cmds.getD p defaultCmd).subcmds ++ ancSubs cmds fuel (cmds.getD p defaultCmd).parent

/-- `runner.updatePath`: the matched command's subcommands followed by
every ancestor's subcommands. -/
def updatePath (st : RunnerSt) (ci : Nat) : List Nat :=
  (getCmd st ci).subcmds ++ ancSubs st.cmds st.cmds.length (getCmd st ci).parent

/-- The search of `runner.walk`: first command on the path whose name is
the token. -/
def walkFind (st : RunnerSt) (path : List Nat) (tok : String) : Option Nat :=
  path.find? fun ci => tok = (getCmd st ci).name

/-- `runner.addParsedCmd`: record the new command as a subcommand of
every parsed command whose definition is its parent, then open it. -/
def addParsedCmd (st : RunnerSt) (parsed : List ParsedCmd) (ci i : Nat) : List ParsedCmd :=
  (parsed.map fun p =>
    if (getCmd st ci).parent = some p.cmddef then { p with subcmds := p.subcmds ++ [ci] }
    else p)
  ++ [{ args := [], cmddef := ci, index := i, operands := [], parsedargs := [], subcmds := [] }]

/-- The token loop of `runner.parseCommands`. -/
def pcLoop (st : RunnerSt) : List String → Nat → PCmdCtx → PCmdCtx
  | [], _, ctx => ctx
  | tok :: rest, i, ctx =>
    match walkFind st ctx.path tok with
    | some ci =>
      pcLoop st rest (i + 1)
        { ctx with path := updatePath st ci, parsed := addParsedCmd st ctx.parsed ci i }
    | none => pcLoop st rest (i + 1) { ctx with parsed := appendTokToLast ctx.parsed tok }

/-- `runner.parseCommands`: the root opens at index 0 with the root's
subcommands reachable. -/
def parseCommands (st : RunnerSt) : PCmdCtx :=
  pcLoop st st.argv 0
    { parsed := [{ args := [], cmddef := 0, index := 0, operands := [],
                   parsedargs := [], subcmds := [] }],
      path := (getCmd st 0).subcmds, terminated := false }

/-- `runner.parse`: walk the tokens into commands, then parse and bind
each command's residual tokens in discovery order. -/
def parseOf (st : RunnerSt) : ParseOut :=
  parseLoop st (getRules st.style) (parseCommands st).parsed st.arena0 false [] [] []

/-! ### Executor (src/runner.go `Run`) -/

/-- The execution loop of `runner.Run`: skip commands without an action;
poll `ctx.Err()` (the oracle, by poll index) before each invocation;
record each invocation `(command, operands)`. Returns the trace and the
cancellation cause, if any. -/
def execLoop (st : RunnerSt) (orc : Nat → Option GoErr) :
    List ParsedCmd → Nat → List (Nat × List String) × Option GoErr
  | [], _ => ([], none)
  | c :: rest, k =>
    if !(getCmd st c.cmddef).hasRun then execLoop st orc rest k
    else
      match orc k with
      | some e => ([], some e)
      | none =>
        let (t, r) := execLoop st orc rest (k + 1)
        ((c.cmddef, c.operands) :: t, r)

/-- Everything a run leaves behind: the returned result, the final
argument-definition arena, the binder-invocation trace, the commands
whose residual tokens were parsed, the action-invocation trace and
`r.parsed`. -/
structure RunOut where
  res : GoRes Unit
  arena : List Arg
  binds : List BindEv
  visited : List Nat
  acts : List (Nat × List String)
  parsedCmds : List ParsedCmd
deriving DecidableEq, Repr

/-- `runner.Run`: parse, then execute the parsed commands in discovery
order. `orc` is the `context.Context` passed in (`none` for `nil`, which
Go replaces by `context.Background()`, whose `Err` is always `nil`). The
root-command nil check of `Run` cannot fire (a `RunnerSt` always carries
its command list). -/
def Run (st : RunnerSt) (orc : Option (Nat → Option GoErr)) : RunOut :=
  let po := parseOf st
  match po.res with
  | .crashed =>
    { res := .crashed, arena := po.arena, binds := po.binds, visited := po.visited,
      acts := [], parsedCmds := [] }
  | .err e =>
    { res := .err e, arena := po.arena, binds := po.binds, visited := po.visited,
      acts := [], parsedCmds := [] }
  | .ok parsed =>
    if parsed.length = 0 then
      { res := .err (.emsg "no commands parsed"), arena := po.arena, binds := po.binds,
        visited := po.visited, acts := [], parsedCmds := parsed }
    else
      let o := orc.getD fun _ => none
      let (acts, cErr) := execLoop st o parsed 0
      { res := match cErr with | some e => .err e | none => .ok (),
        arena := po.arena, binds := po.binds, visited := po.visited,
        acts := acts, parsedCmds := parsed }

/-! ### Registration (src/command.go, `NewRunner`) -/

/-- A command as the user declares it, before registration: its argument
definitions by value, and its parent by index (root first, parents before
children, matching `AddSubcommand` registration order). -/
structure CmdSpec where
  args : List Arg
  name : String
  hasRun : Bool
  usage : String
  parent : Option Nat
deriving DecidableEq, Repr

/-- The help argument `configureArgs` injects. -/
def helpArgDef : Arg :=
  { binder := some .boolB, isHelp := true, name := "help", shortName := 'h',
    repeatable := true, required := false,
    usage := "display usage information for this Command" }

/-- The scan of `configureArgs`: does the command already declare a
help-like argument? -/
def hasOwnHelp (args : List Arg) : Bool :=
  args.any fun a => a.isHelp || a.name = "help" || a.name = "h" || a.shortName = 'h'

/-- Registration pass: lay every command's argument definitions into the
arena in order, applying `configureArgs` to each command (one-time help
injection and default-helper installation). -/
def buildCmds : List CmdSpec → Nat → List CmdD × List Arg
  | [], _ => ([], [])
  | s :: rest, base =>
    let own := (List.range s.args.length).map (· + base)
    let withHelp := !hasOwnHelp s.args
    let argIdxs := if withHelp then own ++ [base + s.args.length] else own
    let slice := if withHelp then s.args ++ [helpArgDef] else s.args
    let next := base + slice.length
    let (cs, ar) := buildCmds rest next
    ({ argIdxs := argIdxs, name := s.name, hasRun := s.hasRun, usage := s.usage,
       hasHelper := withHelp, parent := s.parent, subcmds := [] } :: cs,
     slice ++ ar)

/-- `NewRunner` plus the `AddSubcommand` wiring: build the arenas and
derive each command's subcommand list (children in registration order). -/
def buildRunner (specs : List CmdSpec) (style : ArgStyle) (argv : List String) : RunnerSt :=
  let (cs, arena) := buildCmds specs 0
  let cs' := (List.range cs.length).map fun j =>
    let c := cs.getD j defaultCmd
    { c with subcmds := (List.range cs.length).filter fun i =>
        (cs.getD i defaultCmd).parent = some j }
  { cmds := cs', arena0 := arena, argv := argv, style := style }

/-! ### Spec-side predicates and projections used by the claim analyses -/

/-- The spec's Style-A termination condition: "the previous Parsed
Argument (if any) is not required and still has an empty value". -/
def specGnuTermCond (arena : List Arg) (ctx : PArgCtx) : Bool :=
  match ctx.last with
  | none => false
  | some j =>
    let p := ctx.parsed.getD j default
    !(getArg arena p.argdef).required && p.val = ""

/-- The spec's Style-B termination condition on the previous Parsed
Argument: it "is boolean-valued or already has a value". -/
def specPosixTermCond (arena : List Arg) (ctx : PArgCtx) : Bool :=
  match ctx.last with
  | none => false
  | some j =>
    let p := ctx.parsed.getD j default
    isBoolArgD (getArg arena p.argdef) || p.val ≠ ""

/-- Project the parsed arguments out of a per-command parse result. -/
def cpResParsedArgs : CPRes → List ParsedArg
  | .ok out => out.cmd.parsedargs
  | _ => []

/-- Project the bind-phase error out of a per-command parse result. -/
def cpResErr : CPRes → Option GoErr
  | .ok out => out.err
  | .rerr e _ => some e
  | .crashed => none

/-- An `Arg` with its mutable `required` flag blanked, for stating that
parsing changes nothing else. -/
def stripReq (a : Arg) : Arg := { a with required := false }

/-- The binder invocation for `q` succeeds (or there is no binder). -/
def bindNoErr (arena : List Arg) (q : ParsedArg) : Bool :=
  match (getArg arena q.argdef).binder with
  | none => true
  | some k => (k.bindErr q.raw q.val).isNone

/-- The binder invocations `bindArgs` records for a run of parsed
arguments that all bind successfully. -/
def bindEvsOf (arena : List Arg) (l : List ParsedArg) : List BindEv :=
  l.filterMap fun q =>
    ((getArg arena q.argdef).binder).map fun _ => ((q.argdef, q.raw, q.val) : BindEv)

/-- The commands of a parsed list that have an attached action. -/
def actioned (st : RunnerSt) (pcs : List ParsedCmd) : List ParsedCmd :=
  pcs.filter fun c => (getCmd st c.cmddef).hasRun

/-! ### Concrete command trees and argument vectors -/

/-- A plain boolean flag, long name `verbose`, short `b`. -/
def argVerbose : Arg :=
  { binder := some .boolB, isHelp := false, name := "verbose", shortName := 'b',
    repeatable := false, required := false, usage := "b flag" }

/-- `argVerbose`, declared required. -/
def argVerboseReq : Arg := { argVerbose with required := true }

/-- A string option, long name `foo`, short `f`. -/
def argFooStr : Arg :=
  { binder := some .strB, isHelp := false, name := "foo", shortName := 'f',
    repeatable := false, required := false, usage := "f opt" }

/-- An int option, long name `foo`, short `f`. -/
def argFooInt : Arg :=
  { binder := some .intB, isHelp := false, name := "foo", shortName := 'f',
    repeatable := false, required := false, usage := "f int" }

/-- A single root command (with an action) carrying the given arguments. -/
def rootOnly (args : List Arg) (style : ArgStyle) (argv : List String) : RunnerSt :=
  buildRunner [⟨args, "", true, "", none⟩] style argv

/-- A root command plus one subcommand `sub`, both with actions. -/
def rootAndSub (rootArgs : List Arg) (style : ArgStyle) (argv : List String) : RunnerSt :=
  buildRunner [⟨rootArgs, "", true, "", none⟩, ⟨[], "sub", true, "sub cmd", some 0⟩]
    style argv

/-- C1: `--` terminating a subcommand's residual tokens. -/
def stC1ex : RunnerSt := rootAndSub [] .gnu ["sub", "--", "x"]

/-- C2: a POSIX run matching the short option `-f`. -/
def stC2ex : RunnerSt := rootOnly [argFooStr] .posix ["-f"]

/-- C3: a boolean flag followed by a separate token. -/
def stC3sep : RunnerSt := rootOnly [argVerbose] .posix ["-b", "x"]

/-- C3: a boolean flag given an inline `=` value under Style-A. -/
def stC3eq : RunnerSt := rootOnly [argVerbose] .gnu ["--verbose=x"]

/-- C3: a boolean flag given a trailing cluster suffix under Style-B. -/
def stC3clu : RunnerSt := rootOnly [argVerbose] .posix ["-bx"]

/-- C5: a required boolean long option followed by `--`. -/
def stC5run : RunnerSt := rootOnly [argVerboseReq] .gnu ["--verbose", "--", "x"]

/-- C5 (chain level): the arena after `--verbose` was parsed. -/
def arenaC5 : List Arg := [argVerboseReq, helpArgDef]

/-- C5 (chain level): the context after `--verbose` was parsed: the
previous parsed argument is required and has no value. -/
def ctxC5 : PArgCtx :=
  { argIdxs := [0, 1], last := some 0, operands := [],
    parsed := [⟨0, "--verbose", ""⟩], terminated := false }

/-- C6: an int option with a bad inline value, then `--help`. -/
def stC6ex : RunnerSt := rootOnly [argFooInt] .gnu ["--foo=xyz", "--help"]

/-- The root parsed command produced by the token walker for `st` (used
to state per-command results). -/
def rootParsedOf (st : RunnerSt) : ParsedCmd := (parseCommands st).parsed.getD 0 default

/-- C7 (Scenario F): an undeclared long option. -/
def stC7ex : RunnerSt := rootOnly [argFooStr] .gnu ["--bar"]

/-- A run that asks for help (`["-h"]`, GNU). -/
def stHelp : RunnerSt := rootOnly [argFooStr] .gnu ["-h"]

/-- The help text of the `stC7ex` root command. -/
def helpFooStrGnu : String :=
  "Usage:\n     <options>\n\nOptions:\n    -f, --foo    f opt\n"

/-- C8: repeated short option with an option-argument in between (GNU). -/
def stC8slip : RunnerSt := rootOnly [argFooStr] .gnu ["-f", "val", "-f"]

/-- C8: repeated long option (GNU). -/
def stC8gnuLong : RunnerSt := rootOnly [argFooStr] .gnu ["--foo", "--foo"]

/-- C8: repeated short option (GNU). -/
def stC8gnuShort : RunnerSt := rootOnly [argFooStr] .gnu ["-f", "-f"]

/-- C8: repeated short option inside one cluster (GNU). -/
def stC8gnuClu : RunnerSt := rootOnly [argVerbose] .gnu ["-bb"]

/-- C8: repeated short option (POSIX). -/
def stC8posShort : RunnerSt := rootOnly [argFooStr] .posix ["-f", "-f"]

/-- C8: repeated short option inside one cluster (POSIX). -/
def stC8posClu : RunnerSt := rootOnly [argVerbose] .posix ["-bb"]

/-- C9 (Scenario E): a root command with an action and no tokens. -/
def stC9ex : RunnerSt := rootOnly [] .gnu []

/-- A pre-cancelled execution context: every poll reports the cause. -/
def preCancelled : Nat → Option GoErr := fun _ => some (.emsg "context canceled")

/-- C10: `--` in a subcommand's residual tokens with a root token before
the subcommand name. -/
def stC10ex : RunnerSt := rootAndSub [argVerbose] .posix ["-b", "sub", "--"]

/-- Does a run result carry a bare help signal (`*ErrHelp` returned
as-is)? -/
def resIsHelp : GoRes Unit → Bool
  | .err (.help _) => true
  | _ => false

/-- The help text of a root command declaring `argVerbose`, GNU style. -/
def helpVerboseGnu : String :=
  "Usage:\n     <options>\n\nOptions:\n    -b, --verbose    b flag\n"

/-- The help text of a root command declaring `argFooStr`, POSIX style. -/
def helpFooStrPosix : String :=
  "Usage:\n     <options>\n\nOptions:\n    -f    f opt\n"

/-- The help text of a root command declaring `argVerbose`, POSIX style. -/
def helpVerbosePosix : String :=
  "Usage:\n     <options>\n\nOptions:\n    -b    b flag\n"

/-- The help text of a root command declaring `argFooInt`, GNU style. -/
def helpFooIntGnu : String :=
  "Usage:\n     <options>\n\nOptions:\n    -f, --foo    f int\n"

/-- A rule that reports "not consumed" with no error has changed nothing:
its output is exactly `passOut` (every classification rule of both
chains satisfies this). -/
def PassId (f : RuleFn) : Prop :=
  ∀ (arena : List Arg) (arg : String) (i : Nat) (ctx : PArgCtx),
    (f arena arg i ctx).consumed = false → (f arena arg i ctx).err = none →
    f arena arg i ctx = passOut arena arg ctx

/-- A rule that never raises the internal termination signal (every rule
except the two terminator rules satisfies this). -/
def NoTermErr (f : RuleFn) : Prop :=
  ∀ (arena : List Arg) (arg : String) (i : Nat) (ctx : PArgCtx) (j : Nat),
    (f arena arg i ctx).err ≠ some (.term j)

/-- Arena `b` differs from arena `a` at most by turning `required` flags
from off to on (the one mutation `posixOpt` performs). -/
def ReqExt (a b : List Arg) : Prop :=
  b.map stripReq = a.map stripReq ∧
  ∀ i, (getArg a i).required = true → (getArg b i).required = true

/-- A rule whose output arena extends its input arena only by `required`
flags (every classification rule satisfies this). -/
def ArenaPres (f : RuleFn) : Prop :=
  ∀ (arena : List Arg) (arg : String) (i : Nat) (ctx : PArgCtx),
    ReqExt arena ((f arena arg i ctx).arena)

/-- The arena a token-loop outcome leaves behind (the supplied default
stands in for the crash outcome, where no final state exists). -/
def alResArena (r : ALoopRes) (dflt : List Arg) : List Arg :=
  match r with
  | .ok _ a _ => a
  | .err _ a => a
  | .crashed => dflt

/-- The arena a per-command parse outcome leaves behind. -/
def cpResArena (r : CPRes) (dflt : List Arg) : List Arg :=
  match r with
  | .ok out => out.arena
  | .rerr _ a => a
  | .crashed => dflt

/-! ## Theorems -/

/-- C1: the spec says a `--` raising termination appends exactly the raw
argv tokens strictly after the `--` token's absolute position. On the
tree root → `sub` with argv `["sub","--","x"]`, the `--` sits at absolute
position 1, so the claim demands operands `["x"]`; the driver computes
the slice start as `cmd.index + errterm.index = 0` and appends
`argv[1:] = ["--","x"]` — the `--` token itself leaks into the
subcommand's operand list (and the run otherwise succeeds, handing those
operands to the action). -/
theorem C1_subcmd_termination_offbyone :
    (Run stC1ex none).res = .ok () ∧
    (Run stC1ex none).acts = [(0, []), (1, ["--", "x"])] ∧
    ((Run stC1ex none).parsedCmds.getD 1 default).operands = ["--", "x"] ∧
    ((Run stC1ex none).parsedCmds.getD 1 default).operands ≠ ["x"] := by
  decide

/-- C10: the claim says the driver's termination handler never accesses
the residual slice or argv out of bounds. On the tree root (with boolean
flag `-b`) → `sub` with argv `["-b","sub","--"]`, the handler computes
`argpos = cmd.index + errterm.index = 1` and reads `cmd.args[1]` of the
one-element residual slice `["--"]`: the lookup returns `none` and the
run crashes (Go: index out of range panic). -/
theorem C10_termination_handler_crashes :
    (Run stC10ex none).res = .crashed ∧ stC10ex.argv = ["-b", "sub", "--"] := by
  decide

/-- C2 counterexample: the claim says no field of any Arg changes across
`Run`. Under POSIX with argv `["-f"]`, the short-option rule
(`posixOpt`, runner.go:448) sets the matched definition's `Required`
field to `true`: the arena differs after the run (the run itself then
fails required-validation, and the mutation survives). -/
theorem C2_cex_parse_mutates_argdef :
    (Run stC2ex none).arena ≠ stC2ex.arena0 ∧
    (getArg stC2ex.arena0 0).required = false ∧
    (getArg (Run stC2ex none).arena 0).required = true := by
  decide

/-- C3 counterexample: the claim says a boolean argument never has a
following separate token bound as its value. Under POSIX with argv
`["-b","x"]`, `posixOptArg` binds the separate token `x` as the boolean
argument's resolved value (the bind phase then rejects it). -/
theorem C3_cex_bool_binds_separate_token :
    cpResParsedArgs
      (parseArgRulesF stC3sep posixRules stC3sep.arena0 false (rootParsedOf stC3sep)) =
      [⟨0, "-b", "x"⟩] ∧
    isBoolArgD (getArg stC3sep.arena0 0) = true ∧
    stC3sep.argv = ["-b", "x"] := by
  decide

/-- C4 counterexample: the claim says an empty resolved value leaves the
bound target unmodified for every binder kind. The boolean binder sets
its target to `true` on an empty value (presence semantics). -/
theorem C4_cex_bool_empty_modifies_target :
    boolArgBinderBind "-b" "" false = .ok true ∧
    boolArgBinderBind "-b" "" false ≠ .ok false := by
  decide

/-- C5 counterexample: the claim says that under Style-A a `--` token is
consumed as termination only when the previous Parsed Argument is not
required and still empty. With a previous parsed argument that is
required (and empty and boolean), the Style-A chain still consumes `--`
as termination — its second rule is `posixTerminated`; the full run
`["--verbose","--","x"]` with a required boolean confirms (operands
`["x"]`, success). -/
theorem C5_cex_required_prev_still_terminates :
    (runRules arenaC5 "--" 1 ctxC5 gnuRules).err = some (.term 1) ∧
    (runRules arenaC5 "--" 1 ctxC5 gnuRules).consumed = true ∧
    specGnuTermCond arenaC5 ctxC5 = false ∧
    (getArg arenaC5 ((ctxC5.parsed.getD 0 default).argdef)).required = true ∧
    (Run stC5run none).res = .ok () ∧
    ((Run stC5run none).parsedCmds.getD 0 default).operands = ["x"] := by
  decide

/-- C6 counterexample: the claim says that whenever a parsed argument of
some command is the help argument, `Run` returns `ErrHelp`. With argv
`["--foo=xyz","--help"]` the help argument is parsed, but the earlier
parsed argument's binder fails first: `Run` returns the wrapped
conversion error, not a help signal. -/
theorem C6_cex_conversion_error_preempts_help :
    cpResParsedArgs
      (parseArgRulesF stC6ex gnuRules stC6ex.arena0 false (rootParsedOf stC6ex)) =
      [⟨0, "--foo=xyz", "xyz"⟩, ⟨1, "--help", ""⟩] ∧
    (getArg stC6ex.arena0 1).isHelp = true ∧
    (Run stC6ex none).res = .err (.wrapHelp (convMsg "xyz" "--foo=xyz") helpFooIntGnu) ∧
    resIsHelp (Run stC6ex none).res = false := by
  decide

/-- C8 counterexample: the claim says repeating a non-repeatable argument
always fails, under both syntax styles, in particular by short name.
Under GNU with argv `["-f","val","-f"]` the second `-f` is consumed by
`posixOperand` (the previous parsed argument already has a value) before
the short-option rule can reject it: the run succeeds and `-f` becomes
an operand. -/
theorem C8_cex_gnu_repeat_becomes_operand :
    (Run stC8slip none).res = .ok () ∧
    ((Run stC8slip none).parsedCmds.getD 0 default).operands = ["-f"] ∧
    (getArg stC8slip.arena0 0).repeatable = false ∧
    ((Run stC8slip none).parsedCmds.getD 0 default).parsedargs =
      [⟨0, "-f", "val"⟩] := by
  decide

/-- C8 amended: repeating a non-repeatable argument fails with a
non-repeatable-option error whenever the repeated occurrence is
classified by an option rule — by long name (GNU), by short name (GNU
and POSIX), and inside a cluster (GNU and POSIX) — but under GNU a
repeated short option that follows a completed option-argument is
consumed as an operand and parsing succeeds. -/
theorem C8_amended_nonrepeatable_cases :
    (Run stC8gnuLong none).res =
      .err (.wrapHelp ("non-repeatable option: --foo") helpFooStrGnu) ∧
    (Run stC8gnuShort none).res =
      .err (.wrapHelp ("non-repeatable option: -f") helpFooStrGnu) ∧
    (Run stC8gnuClu none).res =
      .err (.wrapHelp ("non-repeatable option: -bb") helpVerboseGnu) ∧
    (Run stC8posShort none).res =
      .err (.wrapHelp ("non-repeatable option: -f") helpFooStrPosix) ∧
    (Run stC8posClu none).res =
      .err (.wrapHelp ("non-repeatable option: -bb") helpVerbosePosix) ∧
    (Run stC8slip none).res = .ok () ∧
    ((Run stC8slip none).parsedCmds.getD 0 default).operands = ["-f"] := by
  decide

/-- Helper: if some element of the list fails `strconv.Atoi`, the
element loop of `intListBinder.Bind` fails. -/
theorem intList_go_err (arg : String) :
    ∀ l : List String, (∃ x ∈ l, goAtoi x = none) →
      ∃ m, intListBinderBind.go arg l = .error m := by
  intro l
  induction l with
  | nil => rintro ⟨x, hx, _⟩; cases hx
  | cons y ys ih =>
    rintro ⟨x, hx, hfail⟩
    rcases List.mem_cons.mp hx with h | h
    · subst h
      exact ⟨convMsg x arg, by simp [intListBinderBind.go, hfail]⟩
    · rcases ih ⟨x, h, hfail⟩ with ⟨m, hm⟩
      cases hy : goAtoi y with
      | none => exact ⟨convMsg y arg, by simp [intListBinderBind.go, hy]⟩
      | some n =>
        refine ⟨m, ?_⟩
        simp [intListBinderBind.go, hy, hm, Except.map]

/-- C4 amended: for every built-in binder kind except the boolean one,
`Bind` with an empty resolved value leaves the target unmodified and
returns no error; the boolean binder instead sets its target to `true`
(presence is its value). List binders split on `,`: binding `"4,5,6"`
over `[1,2,3]` yields exactly `[4,5,6]`, and a non-empty value with any
element failing coercion fails the whole bind. -/
theorem C4_amended_binder_contract :
    (∀ (F : Type) (pf : String → Option F) (arg : String) (t : F),
      float64BinderBind pf arg "" t = .ok t) ∧
    (∀ (F : Type) (pf : String → Option F) (arg : String) (t : List F),
      float64ListBinderBind pf arg "" t = .ok t) ∧
    (∀ (arg : String) (t : Int), intBinderBind arg "" t = .ok t) ∧
    (∀ (arg : String) (t : List Int), intListBinderBind arg "" t = .ok t) ∧
    (∀ (arg : String) (t : Int), int64BinderBind arg "" t = .ok t) ∧
    (∀ (arg : String) (t : List Int), int64ListBinderBind arg "" t = .ok t) ∧
    (∀ t : String, stringBinderBind "" t = .ok t) ∧
    (∀ t : List String, stringListBinderBind "" t = .ok t) ∧
    (∀ (arg : String) (t : Nat), uintBinderBind arg "" t = .ok t) ∧
    (∀ (arg : String) (t : List Nat), uintListBinderBind arg "" t = .ok t) ∧
    (∀ (arg : String) (t : Nat), uint64BinderBind arg "" t = .ok t) ∧
    (∀ (arg : String) (t : List Nat), uint64ListBinderBind arg "" t = .ok t) ∧
    (∀ (arg : String) (t : Bool), boolArgBinderBind arg "" t = .ok true) ∧
    intListBinderBind "-b" "4,5,6" [1, 2, 3] = .ok [4, 5, 6] ∧
    (∀ (arg val : String) (t : List Int), val ≠ "" →
      (∃ x ∈ goSplit val ',', goAtoi x = none) →
      ∃ m, intListBinderBind arg val t = .error m) := by
  refine ⟨?_, ?_, ?_, ?_, ?_, ?_, ?_, ?_, ?_, ?_, ?_, ?_, ?_, ?_, ?_⟩
  · intro F pf arg t; rfl
  · intro F pf arg t; rfl
  · intro arg t; rfl
  · intro arg t; rfl
  · intro arg t; rfl
  · intro arg t; rfl
  · intro t; rfl
  · intro t; rfl
  · intro arg t; rfl
  · intro arg t; rfl
  · intro arg t; rfl
  · intro arg t; rfl
  · intro arg t; rfl
  · decide
  · intro arg val t hval hex
    rcases intList_go_err arg (goSplit val ',') hex with ⟨m, hm⟩
    exact ⟨m, by simp [intListBinderBind, hval, hm]⟩

/-- C4 amended, witness: the element-failure clause at the concrete
input `Bind("-b", "4,a")` over `[1,2,3]`, and the empty-value clause for
the int binder at target `7`. -/
theorem C4_amended_binder_contract_witness :
    (∃ m, intListBinderBind "-b" "4,a" [1, 2, 3] = .error m) ∧
    intBinderBind "-b" "" 7 = .ok 7 := by
  refine ⟨C4_amended_binder_contract.2.2.2.2.2.2.2.2.2.2.2.2.2.2 "-b" "4,a" [1, 2, 3]
    (by decide) ⟨"a", by decide, by decide⟩,
    C4_amended_binder_contract.2.2.1 "-b" 7⟩

/-- C3 amended: the parser can bind a following separate token as a
boolean argument's value (C3 counterexample), but every non-empty
resolved value reaching a boolean binder — from a separate token, an
inline `=value`, or a trailing cluster suffix — makes the bind phase
return the conversion error, so each of the three supply forms ends the
run with that error. -/
theorem C3_amended_bool_value_rejected :
    (∀ raw v : String, v ≠ "" → BinderK.boolB.bindErr raw v = some (convMsg v raw)) ∧
    (Run stC3sep none).res = .err (.wrapHelp (convMsg "x" "-b") helpVerbosePosix) ∧
    (Run stC3eq none).res = .err (.wrapHelp (convMsg "x" "--verbose=x") helpVerboseGnu) ∧
    (Run stC3clu none).res = .err (.wrapHelp (convMsg "bx" "-bx") helpVerbosePosix) := by
  refine ⟨?_, by decide, by decide, by decide⟩
  intro raw v hv
  simp [BinderK.bindErr, boolArgBinderBind, hv]

/-- C3 amended, witness: the universal clause at `raw = "-b"`,
`v = "x"`. -/
theorem C3_amended_bool_value_rejected_witness :
    BinderK.boolB.bindErr "-b" "x" = some (convMsg "x" "-b") :=
  C3_amended_bool_value_rejected.1 "-b" "x" (by decide)

/-- Helper: with no cancellation among the polls it needs, the executor
runs every actioned command in order with its operands. -/
theorem execLoop_all (st : RunnerSt) (orc : Nat → Option GoErr) :
    ∀ (pcs : List ParsedCmd) (k : Nat),
      (∀ j, j < (actioned st pcs).length → orc (k + j) = none) →
      execLoop st orc pcs k =
        ((actioned st pcs).map fun c => (c.cmddef, c.operands), none) := by
  intro pcs
  induction pcs with
  | nil => intro k _; simp [execLoop, actioned]
  | cons c rest ih =>
    intro k h
    by_cases hr : (getCmd st c.cmddef).hasRun
    · have h0 : orc k = none := by
        have := h 0 (by simp [actioned, List.filter_cons, hr])
        simpa using this
      have ih' := ih (k + 1) (fun j hj => by
        have := h (j + 1) (by simp [actioned, List.filter_cons, hr] at hj ⊢; omega)
        simpa [Nat.add_assoc, Nat.add_comm 1 j] using this)
      simp [execLoop, hr, h0, ih', actioned, List.filter_cons]
    · have ih' := ih k (fun j hj => h j (by
        simpa [actioned, List.filter_cons, hr] using hj))
      simp [execLoop, hr, ih', actioned, List.filter_cons]

/-- Helper: if the `j`-th poll (counting only actioned commands) is the
first to report cancellation, the executor stops there: exactly the
first `j` actioned commands ran, and the cause is returned. -/
theorem execLoop_cancel (st : RunnerSt) (orc : Nat → Option GoErr) :
    ∀ (pcs : List ParsedCmd) (k j : Nat) (e : GoErr),
      (∀ m, m < j → orc (k + m) = none) → orc (k + j) = some e →
      j < (actioned st pcs).length →
      execLoop st orc pcs k =
        (((actioned st pcs).take j).map fun c => (c.cmddef, c.operands), some e) := by
  intro pcs
  induction pcs with
  | nil => intro k j e _ _ hlt; simp [actioned] at hlt
  | cons c rest ih =>
    intro k j e hnone hsome hlt
    by_cases hr : (getCmd st c.cmddef).hasRun
    · cases j with
      | zero =>
        have h0 : orc k = some e := by simpa using hsome
        simp [execLoop, hr, h0, actioned, List.filter_cons]
      | succ j' =>
        have h0 : orc k = none := by
          have := hnone 0 (Nat.succ_pos j')
          simpa using this
        have ih' := ih (k + 1) j' e
          (fun m hm => by
            have := hnone (m + 1) (by omega)
            simpa [Nat.add_assoc, Nat.add_comm 1 m] using this)
          (by
            have : k + 1 + j' = k + (j' + 1) := by omega
            rw [this]; exact hsome)
          (by simp [actioned, List.filter_cons, hr] at hlt ⊢; omega)
        simp [execLoop, hr, h0, ih', actioned, List.filter_cons]
    · exact (by
        have ih' := ih k j e hnone hsome (by
          simpa [actioned, List.filter_cons, hr] using hlt)
        simpa [execLoop, hr, actioned, List.filter_cons] using ih')

/-- C9: the executor skips commands without an action; it polls the
cancellation signal once before each invocation of an actioned command;
with no cancellation every actioned command runs in discovery order with
its operands; the first raised poll makes `Run` return its cause with
exactly the earlier actioned commands run (and nothing undone — the
trace of completed invocations is preserved); and a pre-cancelled
context returns the cause with no action invoked at all (Scenario E). -/
theorem C9_cancellation_polling :
    (∀ (st : RunnerSt) (orc : Nat → Option GoErr) (pcs : List ParsedCmd) (k : Nat),
      (∀ j, j < (actioned st pcs).length → orc (k + j) = none) →
      execLoop st orc pcs k =
        ((actioned st pcs).map fun c => (c.cmddef, c.operands), none)) ∧
    (∀ (st : RunnerSt) (orc : Nat → Option GoErr) (pcs : List ParsedCmd) (k j : Nat)
      (e : GoErr),
      (∀ m, m < j → orc (k + m) = none) → orc (k + j) = some e →
      j < (actioned st pcs).length →
      execLoop st orc pcs k =
        (((actioned st pcs).take j).map fun c => (c.cmddef, c.operands), some e)) ∧
    (∀ (st : RunnerSt) (orc : Nat → Option GoErr) (parsed : List ParsedCmd),
      (parseOf st).res = .ok parsed → parsed.length ≠ 0 →
      (Run st (some orc)).acts = (execLoop st orc parsed 0).1 ∧
      (Run st (some orc)).res =
        (match (execLoop st orc parsed 0).2 with
          | some e => .err e
          | none => .ok ())) ∧
    ((Run stC9ex (some preCancelled)).res = .err (.emsg "context canceled") ∧
      (Run stC9ex (some preCancelled)).acts = []) := by
  refine ⟨execLoop_all, execLoop_cancel, ?_, by decide, by decide⟩
  intro st orc parsed hres hlen
  rcases hE : execLoop st orc parsed 0 with ⟨a, c⟩
  simp only [Run]
  rw [hres]
  simp [hlen, hE]

/-- C9, witness: the no-cancellation clause on a one-command list with
the never-cancelled oracle, the cancellation clause on the same list
with a pre-cancelled oracle, and the `Run`-connection clause on
`stC9ex`. -/
theorem C9_cancellation_polling_witness :
    execLoop stC9ex (fun _ => none) [⟨[], 0, 0, [], [], []⟩] 0 = ([(0, [])], none) ∧
    execLoop stC9ex preCancelled [⟨[], 0, 0, [], [], []⟩] 0 =
      ([], some (.emsg "context canceled")) ∧
    (Run stC9ex (some preCancelled)).acts =
      (execLoop stC9ex preCancelled [⟨[], 0, 0, [], [], []⟩] 0).1 := by
  refine ⟨?_, ?_, ?_⟩
  · exact C9_cancellation_polling.1 stC9ex (fun _ => none) [⟨[], 0, 0, [], [], []⟩] 0
      (fun j _ => rfl)
  · exact C9_cancellation_polling.2.1 stC9ex preCancelled [⟨[], 0, 0, [], [], []⟩] 0 0
      (.emsg "context canceled") (fun m hm => absurd hm (Nat.not_lt_zero m)) rfl
      (by decide)
  · exact (C9_cancellation_polling.2.2.1 stC9ex preCancelled [⟨[], 0, 0, [], [], []⟩]
      (by decide) (by decide)).1

/-- Helper: `gnuTerminated` changes nothing when it does not fire. -/
theorem passId_gnuTerminated : PassId gnuTerminated := by
  intro arena arg i ctx hc he
  revert hc he
  simp only [gnuTerminated]
  split
  · intro hc _; simp at hc
  · intro _ _; rfl

/-- Helper: `posixTerminated` changes nothing when it does not fire. -/
theorem passId_posixTerminated : PassId posixTerminated := by
  intro arena arg i ctx hc he
  revert hc he
  simp only [posixTerminated]
  split
  · intro hc _; simp at hc
  · intro _ _; rfl

/-- Helper: `validGnuOpt` changes nothing when it does not reject. -/
theorem passId_validGnuOpt : PassId validGnuOpt := by
  intro arena arg i ctx hc he
  revert hc he
  simp only [validGnuOpt]
  split
  · intro _ he; simp [passOut] at he
  · intro _ _; rfl

/-- Helper: `validPosixOpt` changes nothing when it does not reject. -/
theorem passId_validPosixOpt : PassId validPosixOpt := by
  intro arena arg i ctx hc he
  revert hc he
  simp only [validPosixOpt]
  split
  · intro _ he; simp [passOut] at he
  · intro _ _; rfl

/-- Helper: `posixOperand` changes nothing when it does not consume. -/
theorem passId_posixOperand : PassId posixOperand := by
  intro arena arg i ctx hc he
  revert hc he
  simp only [posixOperand]
  split
  · intro hc _; simp at hc
  · intro _ _; rfl

/-- Helper: `posixOptArg` changes nothing when it does not consume. -/
theorem passId_posixOptArg : PassId posixOptArg := by
  intro arena arg i ctx hc he
  revert hc he
  simp only [posixOptArg]
  split
  · intro _ _; rfl
  · split
    · intro _ _; rfl
    · intro hc _; simp at hc

/-- Helper: `gnuOptArg` changes nothing when it does not consume or
reject. -/
theorem passId_gnuOptArg : PassId gnuOptArg := by
  intro arena arg i ctx hc he
  revert hc he
  simp only [gnuOptArg]
  split
  · intro _ _; rfl
  · split
    · intro _ _; rfl
    · split
      · intro _ _; rfl
      · split
        · intro _ he; simp [passOut] at he
        · intro hc _; simp at hc

/-- Helper: the search loop of `gnuOpt` changes nothing when it finds no
match. -/
theorem gnuOptFind_pass (arena : List Arg) (arg opt optarg : String) (ctx : PArgCtx) :
    ∀ l : List Nat, (gnuOptFind arena arg opt optarg ctx l).consumed = false →
      (gnuOptFind arena arg opt optarg ctx l).err = none →
      gnuOptFind arena arg opt optarg ctx l = passOut arena arg ctx := by
  intro l
  induction l with
  | nil => intro _ _; rfl
  | cons ai rest ih =>
    intro hc he
    revert hc he
    simp only [gnuOptFind]
    split
    · intro hc he; exact ih hc he
    · split
      · intro _ he; simp [passOut] at he
      · split
        · intro _ he; simp [passOut] at he
        · intro hc _; simp at hc

/-- Helper: `gnuOpt` changes nothing when it does not consume or
reject. -/
theorem passId_gnuOpt : PassId gnuOpt := by
  intro arena arg i ctx hc he
  revert hc he
  simp only [gnuOpt]
  split
  · intro _ _; rfl
  · intro hc he; exact gnuOptFind_pass arena arg _ _ ctx _ hc he

/-- Helper: when the cluster search starts from "no match yet" and finds
none, the `parsed` flag it leaves is `false`. -/
theorem posixFindArg_none_false (arena : List Arg) (name : String) (ch : Char) :
    ∀ l : List Nat, (posixFindArg arena name ch false l).1 = none →
      (posixFindArg arena name ch false l).2 = false := by
  intro l
  induction l with
  | nil => intro _; rfl
  | cons ai rest ih =>
    intro h
    revert h
    simp only [posixFindArg]
    split
    · intro h; exact ih h
    · intro h; simp at h

/-- Helper: once a cluster character has matched (the `parsed` flag is
`true` and the scan is past position 0), the scan always ends consuming
the token or rejecting it. -/
theorem posixOptLoop_true (opt : String) :
    ∀ (cs : List Char) (i : Nat) (rest argStr : String) (arena : List Arg)
      (ctx : PArgCtx), 0 < i →
      (posixOptLoop opt cs i rest argStr true arena ctx).consumed = true ∨
      ((posixOptLoop opt cs i rest argStr true arena ctx).err).isSome = true := by
  intro cs
  induction cs with
  | nil => intro i rest argStr arena ctx _; left; rfl
  | cons ch cs ih =>
    intro i rest argStr arena ctx hi
    simp only [posixOptLoop]
    split
    · -- a definition matched this character
      split
      · right; rfl
      · split
        · right; rfl
        · split
          · left; rfl
          · exact ih _ _ _ _ _ (Nat.succ_pos i)
    · -- no definition matched; case on the surviving `parsed` flag
      rename_i snd hf
      cases snd
      · split
        · rename_i hcond
          simp [Nat.pos_iff_ne_zero.mp hi] at hcond
        · split
          · left; rfl
          · rename_i h2; simp at h2
      · split
        · rename_i hcond; simp at hcond
        · split
          · rename_i h2; simp at h2
          · exact ih _ _ _ _ _ (Nat.succ_pos i)

/-- Helper: when the cluster scan never matches, it changes nothing and
leaves the token string as it found it. -/
theorem posixOptLoop_false_pass (opt : String) :
    ∀ (cs : List Char) (i : Nat) (rest argStr : String) (arena : List Arg)
      (ctx : PArgCtx),
      (posixOptLoop opt cs i rest argStr false arena ctx).consumed = false →
      (posixOptLoop opt cs i rest argStr false arena ctx).err = none →
      posixOptLoop opt cs i rest argStr false arena ctx = passOut arena argStr ctx := by
  intro cs
  induction cs with
  | nil => intro i rest argStr arena ctx _ _; rfl
  | cons ch cs ih =>
    intro i rest argStr arena ctx hc he
    revert hc he
    simp only [posixOptLoop]
    split
    · -- a definition matched this character
      split
      · intro _ he; simp at he
      · split
        · intro _ he; simp at he
        · split
          · intro hc _; simp at hc
          · intro hc he
            rcases posixOptLoop_true opt cs (i + 1) _ _ _ _ (Nat.succ_pos i) with
              h | h
            · rw [hc] at h; cases h
            · rw [he] at h; cases h
    · -- no definition matched
      rename_i fst snd hf
      have hsnd : snd = false := by
        have := posixFindArg_none_false arena ch.toString ch ctx.argIdxs
        rw [hf] at this
        exact this rfl
      subst hsnd
      split
      · intro _ _; rfl
      · split
        · intro hc _; simp at hc
        · rename_i h1 h2
          simp at h1 h2

/-- Helper: `posixOpt` changes nothing when it does not consume or
reject. -/
theorem passId_posixOpt : PassId posixOpt := by
  intro arena arg i ctx hc he
  revert hc he
  simp only [posixOpt]
  split
  · intro _ _; rfl
  · intro hc he
    exact posixOptLoop_false_pass _ _ 0 _ _ arena ctx hc he

/-- Helper: a chain on which every rule passes leaves the token, context
and arena untouched. -/
theorem runRules_pass :
    ∀ fs : List RuleFn, (∀ f ∈ fs, PassId f) →
      ∀ (arena : List Arg) (arg : String) (i : Nat) (ctx : PArgCtx),
        (runRules arena arg i ctx fs).consumed = false →
        (runRules arena arg i ctx fs).err = none →
        runRules arena arg i ctx fs = passOut arena arg ctx := by
  intro fs
  induction fs with
  | nil => intro _ arena arg i ctx _ _; rfl
  | cons f fs ih =>
    intro hall arena arg i ctx hc he
    revert hc he
    simp only [runRules]
    split
    · rename_i hcond
      intro hc he
      rw [he, hc] at hcond
      simp at hcond
    · rename_i hcond
      intro hc he
      have herr : (f arena arg i ctx).err = none := by
        cases h : (f arena arg i ctx).err
        · rfl
        · exact absurd (by simp [h]) hcond
      have hcons : (f arena arg i ctx).consumed = false := by
        cases h : (f arena arg i ctx).consumed
        · rfl
        · exact absurd (by simp [h]) hcond
      have hid := hall f (List.mem_cons_self f fs) arena arg i ctx hcons herr
      rw [hid] at hc he ⊢
      simp only [passOut] at hc he ⊢
      exact ih (fun g hg => hall g (List.mem_cons_of_mem f hg)) arena arg i ctx hc he

/-- Helper: every Style-A rule passes as identity. -/
theorem gnuRules_passId : ∀ f ∈ gnuRules, PassId f := by
  intro f hf
  simp only [gnuRules, List.mem_cons, List.not_mem_nil, or_false] at hf
  rcases hf with h | h | h | h | h | h | h | h <;> subst h
  · exact passId_gnuTerminated
  · exact passId_posixTerminated
  · exact passId_validGnuOpt
  · exact passId_gnuOpt
  · exact passId_posixOperand
  · exact passId_gnuOptArg
  · exact passId_posixOpt
  · exact passId_posixOptArg

/-- Helper: every Style-B rule passes as identity. -/
theorem posixRules_passId : ∀ f ∈ posixRules, PassId f := by
  intro f hf
  simp only [posixRules, List.mem_cons, List.not_mem_nil, or_false] at hf
  rcases hf with h | h | h | h | h <;> subst h
  · exact passId_posixTerminated
  · exact passId_validPosixOpt
  · exact passId_posixOpt
  · exact passId_posixOperand
  · exact passId_posixOptArg

/-- C7: the chain runs the rules in their fixed order and the first rule
that consumes (or errors) stops it; on either chain, a token no rule
consumes makes the token loop fail with the unrecognized-argument error
naming that very token (the chain leaves the token unchanged); the
driver wraps any such per-command message with that command's rendered
help text; and Scenario F concretely: `["--bar"]` against a command
declaring only `foo` yields the wrapped error naming `--bar`. -/
theorem C7_unknown_argument_error :
    (∀ (f : RuleFn) (fs : List RuleFn) (arena : List Arg) (arg : String) (i : Nat)
      (ctx : PArgCtx),
      ((f arena arg i ctx).err.isSome || (f arena arg i ctx).consumed) = true →
      runRules arena arg i ctx (f :: fs) = f arena arg i ctx) ∧
    (∀ rules ∈ [gnuRules, posixRules],
      ∀ (arena : List Arg) (tok : String) (i : Nat) (ctx : PArgCtx)
        (argv cmdArgs : List String) (ci : Nat) (rest : List String),
        (runRules arena tok i ctx rules).err = none →
        (runRules arena tok i ctx rules).consumed = false →
        argLoop rules argv ci cmdArgs (tok :: rest) i ctx arena false =
          .err (.emsg ("unknown argument provided: " ++ tok)) arena) ∧
    (∀ (st : RunnerSt) (rules : List RuleFn) (arena : List Arg) (cmd : ParsedCmd)
      (rest acc : List ParsedCmd) (binds : List BindEv) (vis : List Nat)
      (m : String) (arena' : List Arg),
      parseArgRulesF st rules arena false cmd = .rerr (.emsg m) arena' →
      (parseLoop st rules (cmd :: rest) arena false acc binds vis).res =
        .err (.wrapHelp m (getHelpMsg st arena' cmd.cmddef))) ∧
    (Run stC7ex none).res =
      .err (.wrapHelp ("unknown argument provided: --bar") helpFooStrGnu) := by
  refine ⟨?_, ?_, ?_, by decide⟩
  · intro f fs arena arg i ctx h
    simp only [runRules]
    rw [if_pos h]
  · intro rules hmem arena tok i ctx argv cmdArgs ci rest he hc
    have hpass : runRules arena tok i ctx rules = passOut arena tok ctx := by
      simp only [List.mem_cons, List.not_mem_nil, or_false] at hmem
      rcases hmem with h | h <;> subst h
      · exact runRules_pass gnuRules gnuRules_passId arena tok i ctx hc he
      · exact runRules_pass posixRules posixRules_passId arena tok i ctx hc he
    simp only [argLoop, Bool.false_eq_true, if_false, hpass, passOut]
  · intro st rules arena cmd rest acc binds vis m arena' h
    simp only [parseLoop, Bool.false_eq_true, if_false, h]
    simp [GoErr.isHelpErr, GoErr.msgText]

/-- C7, witness: the stop-at-first-rule clause at `posixTerminated` on a
leading `--`; the unknown-token clause at the Style-A chain on token
`--bar` with the `stC7ex` argument definitions; the wrapping clause at
the `stC7ex` root command. -/
theorem C7_unknown_argument_error_witness :
    runRules stC7ex.arena0 "--" 0 ⟨[0, 1], none, [], [], false⟩ (posixTerminated :: []) =
      posixTerminated stC7ex.arena0 "--" 0 ⟨[0, 1], none, [], [], false⟩ ∧
    argLoop gnuRules stC7ex.argv 0 ["--bar"] ["--bar"] 0
      ⟨[0, 1], none, [], [], false⟩ stC7ex.arena0 false =
      .err (.emsg ("unknown argument provided: " ++ "--bar")) stC7ex.arena0 ∧
    (parseLoop stC7ex gnuRules [rootParsedOf stC7ex] stC7ex.arena0 false [] [] []).res =
      .err (.wrapHelp ("unknown argument provided: --bar")
        (getHelpMsg stC7ex stC7ex.arena0 0)) := by
  refine ⟨?_, ?_, ?_⟩
  · exact C7_unknown_argument_error.1 posixTerminated [] stC7ex.arena0 "--" 0
      ⟨[0, 1], none, [], [], false⟩ (by decide)
  · exact C7_unknown_argument_error.2.1 gnuRules (List.Mem.head _) stC7ex.arena0 "--bar" 0
      ⟨[0, 1], none, [], [], false⟩ stC7ex.argv ["--bar"] 0 [] (by decide) (by decide)
  · exact C7_unknown_argument_error.2.2.1 stC7ex gnuRules stC7ex.arena0
      (rootParsedOf stC7ex) [] [] [] [] ("unknown argument provided: --bar")
      stC7ex.arena0 (by decide)

/-- Helper: on a `--` token, `gnuTerminated` is governed exactly by the
spec's Style-A condition. -/
theorem gnuTerminated_eval (arena : List Arg) (ctx : PArgCtx) (i : Nat) :
    gnuTerminated arena "--" i ctx =
      if specGnuTermCond arena ctx = true then
        { consumed := true, err := some (.term i), arg := "--", ctx := ctx, arena := arena }
      else passOut arena "--" ctx := rfl

/-- Helper: on a `--` token, `posixTerminated` is governed exactly by
"first token, or previous argument boolean or valued". -/
theorem posixTerminated_eval (arena : List Arg) (ctx : PArgCtx) (i : Nat) :
    posixTerminated arena "--" i ctx =
      if (decide (i = 0) || specPosixTermCond arena ctx) = true then
        { consumed := true, err := some (.term i), arg := "--", ctx := ctx, arena := arena }
      else passOut arena "--" ctx := rfl

/-- Helper: a rule that stops the chain determines the chain's output. -/
theorem runRules_cons_stop (f : RuleFn) (fs : List RuleFn) (arena : List Arg)
    (arg : String) (i : Nat) (ctx : PArgCtx)
    (h : ((f arena arg i ctx).err.isSome || (f arena arg i ctx).consumed) = true) :
    runRules arena arg i ctx (f :: fs) = f arena arg i ctx := by
  simp only [runRules]
  rw [if_pos h]

/-- Helper: a rule that passes as identity drops out of the chain. -/
theorem runRules_cons_pass (f : RuleFn) (fs : List RuleFn) (arena : List Arg)
    (arg : String) (i : Nat) (ctx : PArgCtx)
    (h : f arena arg i ctx = passOut arena arg ctx) :
    runRules arena arg i ctx (f :: fs) = runRules arena arg i ctx fs := by
  simp only [runRules, h, passOut]
  rfl

/-- Helper: `validGnuOpt` never raises termination. -/
theorem noterm_validGnuOpt : NoTermErr validGnuOpt := by
  intro arena arg i ctx j
  simp only [validGnuOpt]
  split
  · simp [passOut]
  · simp [passOut]

/-- Helper: `validPosixOpt` never raises termination. -/
theorem noterm_validPosixOpt : NoTermErr validPosixOpt := by
  intro arena arg i ctx j
  simp only [validPosixOpt]
  split
  · simp [passOut]
  · simp [passOut]

/-- Helper: the `gnuOpt` search loop never raises termination. -/
theorem gnuOptFind_noterm (arena : List Arg) (arg opt optarg : String) (ctx : PArgCtx) :
    ∀ (l : List Nat) (j : Nat),
      (gnuOptFind arena arg opt optarg ctx l).err ≠ some (.term j) := by
  intro l
  induction l with
  | nil => intro j; simp [gnuOptFind, passOut]
  | cons ai rest ih =>
    intro j
    simp only [gnuOptFind]
    split
    · exact ih j
    · split
      · simp [passOut]
      · split
        · simp [passOut]
        · simp

/-- Helper: `gnuOpt` never raises termination. -/
theorem noterm_gnuOpt : NoTermErr gnuOpt := by
  intro arena arg i ctx j
  simp only [gnuOpt]
  split
  · simp [passOut]
  · exact gnuOptFind_noterm arena arg _ _ ctx _ j

/-- Helper: `posixOperand` never raises termination. -/
theorem noterm_posixOperand : NoTermErr posixOperand := by
  intro arena arg i ctx j
  simp only [posixOperand]
  split
  · simp
  · simp [passOut]

/-- Helper: `gnuOptArg` never raises termination. -/
theorem noterm_gnuOptArg : NoTermErr gnuOptArg := by
  intro arena arg i ctx j
  simp only [gnuOptArg]
  split
  · simp [passOut]
  · split
    · simp [passOut]
    · split
      · simp [passOut]
      · split
        · simp [passOut]
        · simp

/-- Helper: the cluster scan never raises termination. -/
theorem posixOptLoop_noterm (opt : String) :
    ∀ (cs : List Char) (i : Nat) (rest argStr : String) (parsed : Bool)
      (arena : List Arg) (ctx : PArgCtx) (j : Nat),
      (posixOptLoop opt cs i rest argStr parsed arena ctx).err ≠ some (.term j) := by
  intro cs
  induction cs with
  | nil => intro i rest argStr parsed arena ctx j; simp [posixOptLoop]
  | cons ch cs ih =>
    intro i rest argStr parsed arena ctx j
    simp only [posixOptLoop]
    split
    · split
      · simp
      · split
        · simp
        · split
          · simp
          · exact ih _ _ _ _ _ _ j
    · split
      · simp
      · split
        · simp
        · exact ih _ _ _ _ _ _ j

/-- Helper: `posixOpt` never raises termination. -/
theorem noterm_posixOpt : NoTermErr posixOpt := by
  intro arena arg i ctx j
  simp only [posixOpt]
  split
  · simp [passOut]
  · exact posixOptLoop_noterm _ _ 0 _ _ false arena ctx j

/-- Helper: `posixOptArg` never raises termination. -/
theorem noterm_posixOptArg : NoTermErr posixOptArg := by
  intro arena arg i ctx j
  simp only [posixOptArg]
  split
  · simp [passOut]
  · split
    · simp [passOut]
    · simp

/-- Helper: a chain of rules none of which raises termination never ends
with a termination error. -/
theorem runRules_noterm :
    ∀ fs : List RuleFn, (∀ f ∈ fs, NoTermErr f) →
      ∀ (arena : List Arg) (arg : String) (i : Nat) (ctx : PArgCtx) (j : Nat),
        (runRules arena arg i ctx fs).err ≠ some (.term j) := by
  intro fs
  induction fs with
  | nil => intro _ arena arg i ctx j; simp [runRules, passOut]
  | cons f fs ih =>
    intro hall arena arg i ctx j
    simp only [runRules]
    split
    · exact hall f (List.mem_cons_self f fs) arena arg i ctx j
    · exact ih (fun g hg => hall g (List.mem_cons_of_mem f hg)) _ _ i _ j

/-- C5 amended: under Style-A, a `--` token is consumed as a termination
signal if and only if the previous Parsed Argument exists, is not
required and still has an empty resolved value (the spec's condition),
OR the Style-B terminator also present in the Style-A chain applies: the
token is the command's first, or the previous Parsed Argument is
boolean-bound or already carries a value. In every other situation no
rule of the Style-A chain raises termination on `--`. -/
theorem C5_amended_gnu_termination_iff :
    ∀ (arena : List Arg) (ctx : PArgCtx) (i : Nat),
      (runRules arena "--" i ctx gnuRules).err = some (.term i) ↔
        (specGnuTermCond arena ctx = true ∨ i = 0 ∨
          specPosixTermCond arena ctx = true) := by
  intro arena ctx i
  have h6 : ∀ j, (runRules arena "--" i ctx
      [validGnuOpt, gnuOpt, posixOperand, gnuOptArg, posixOpt, posixOptArg]).err ≠
      some (.term j) := by
    intro j
    refine runRules_noterm _ ?_ arena "--" i ctx j
    intro f hf
    simp only [List.mem_cons, List.not_mem_nil, or_false] at hf
    rcases hf with h | h | h | h | h | h <;> subst h
    · exact noterm_validGnuOpt
    · exact noterm_gnuOpt
    · exact noterm_posixOperand
    · exact noterm_gnuOptArg
    · exact noterm_posixOpt
    · exact noterm_posixOptArg
  rw [show gnuRules = gnuTerminated :: posixTerminated :: validGnuOpt :: gnuOpt ::
    posixOperand :: gnuOptArg :: posixOpt :: [posixOptArg] from rfl]
  by_cases h1 : specGnuTermCond arena ctx = true
  · rw [runRules_cons_stop _ _ _ _ _ _ (by rw [gnuTerminated_eval, if_pos h1]; rfl)]
    rw [gnuTerminated_eval, if_pos h1]
    simp [h1]
  · rw [runRules_cons_pass _ _ _ _ _ _ (by rw [gnuTerminated_eval, if_neg h1])]
    by_cases h2 : (decide (i = 0) || specPosixTermCond arena ctx) = true
    · rw [runRules_cons_stop _ _ _ _ _ _ (by rw [posixTerminated_eval, if_pos h2]; rfl)]
      rw [posixTerminated_eval, if_pos h2]
      simp only [Bool.or_eq_true, decide_eq_true_eq] at h2
      constructor
      · intro _
        rcases h2 with h | h
        · exact Or.inr (Or.inl h)
        · exact Or.inr (Or.inr h)
      · intro _; rfl
    · rw [runRules_cons_pass _ _ _ _ _ _ (by rw [posixTerminated_eval, if_neg h2])]
      constructor
      · intro h; exact absurd h (h6 i)
      · intro hr
        exfalso
        rcases hr with hr | hr | hr
        · exact h1 hr
        · exact h2 (by simp [hr])
        · exact h2 (by simp [hr])

/-- Helper: the bind phase stops at the first help argument: every
earlier parsed argument that is not help, passes required-validation and
binds cleanly is invoked (and only those), then the help signal is
raised with the command's rendered help text. -/
theorem bindArgs_go_help (st : RunnerSt) (arena : List Arg) (cmd : ParsedCmd)
    (p : ParsedArg) (post : List ParsedArg)
    (hp : (getArg arena p.argdef).isHelp = true) :
    ∀ pre : List ParsedArg,
      (∀ q ∈ pre, (getArg arena q.argdef).isHelp = false ∧
        validateReqArg arena q = none ∧ bindNoErr arena q = true) →
      bindArgs.go st arena cmd (pre ++ p :: post) =
        (bindEvsOf arena pre, some (.help (getHelpMsg st arena cmd.cmddef))) := by
  intro pre
  induction pre with
  | nil =>
    intro _
    simp [bindArgs.go, hp, bindEvsOf]
  | cons q pre ih =>
    intro hall
    have hq := hall q (List.mem_cons_self q pre)
    have hrest := fun r hr => hall r (List.mem_cons_of_mem q hr)
    have ih' := ih hrest
    simp only [List.cons_append, bindArgs.go, hq.1, Bool.false_eq_true, if_false,
      hq.2.1, List.append_eq]
    cases hb : (getArg arena q.argdef).binder with
    | none =>
      rw [ih']
      simp [bindEvsOf, hb]
    | some k =>
      have hkerr : k.bindErr q.raw q.val = none := by
        have h2 := hq.2.2
        rw [bindNoErr, hb] at h2
        exact Option.isNone_iff_eq_none.mp h2
      rw [ih']
      simp [bindEvsOf, hb, hkerr]

/-- C6 amended: the help signal wins only when nothing earlier fails.
(1) Within one command, if the parsed arguments are `pre ++ help :: post`
and every argument of `pre` is not help, passes required-validation and
binds without error, the bind phase invokes exactly the binders of `pre`
and raises `ErrHelp` with that command's rendered help text — no binder
of `post` runs. (2) Whenever the per-command driver reaches a command
whose parse ends in that help signal, the whole parse returns it as-is
and visits no later command. (3) `Run` forwards a parse-level help error
unchanged and executes no action. -/
theorem C6_amended_help_short_circuit :
    (∀ (st : RunnerSt) (arena : List Arg) (cmd : ParsedCmd) (pre : List ParsedArg)
      (p : ParsedArg) (post : List ParsedArg),
      cmd.parsedargs = pre ++ p :: post →
      (getArg arena p.argdef).isHelp = true →
      (∀ q ∈ pre, (getArg arena q.argdef).isHelp = false ∧
        validateReqArg arena q = none ∧ bindNoErr arena q = true) →
      bindArgs st arena cmd =
        (bindEvsOf arena pre, some (.help (getHelpMsg st arena cmd.cmddef)))) ∧
    (∀ (st : RunnerSt) (rules : List RuleFn) (cmd : ParsedCmd)
      (rest acc : List ParsedCmd) (arena : List Arg) (binds : List BindEv)
      (vis : List Nat) (out : CmdParseOut) (t : String),
      parseArgRulesF st rules arena false cmd = .ok out →
      out.err = some (.help t) →
      parseLoop st rules (cmd :: rest) arena false acc binds vis =
        { res := .err (.help t), arena := out.arena, binds := binds ++ out.binds,
          visited := vis ++ [cmd.cmddef], terminated := out.terminated }) ∧
    (∀ (st : RunnerSt) (orc : Option (Nat → Option GoErr)) (e : GoErr),
      (parseOf st).res = .err e →
      (Run st orc).res = .err e ∧ (Run st orc).acts = [] ∧
      (Run st orc).visited = (parseOf st).visited ∧
      (Run st orc).binds = (parseOf st).binds) := by
  refine ⟨?_, ?_, ?_⟩
  · intro st arena cmd pre p post hsplit hp hall
    have := bindArgs_go_help st arena cmd p post hp pre hall
    rw [bindArgs, hsplit]
    exact this
  · intro st rules cmd rest acc arena binds vis out t hok herr
    simp only [parseLoop, Bool.false_eq_true, if_false, hok, herr]
    simp [GoErr.isHelpErr]
  · intro st orc e h
    simp only [Run, h]
    simp

/-- C6 amended, witness: the run `["-h"]` — the bind-phase clause with
an empty prefix, the driver clause at the root command (the parse result
evaluated literally), and the `Run` clause, all on `stHelp`. -/
theorem C6_amended_help_short_circuit_witness :
    bindArgs stHelp [argFooStr, { helpArgDef with required := true }]
      ⟨["-h"], 0, 0, [], [⟨1, "-h", ""⟩], []⟩ =
      ([], some (.help (getHelpMsg stHelp [argFooStr, { helpArgDef with required := true }] 0))) ∧
    parseLoop stHelp gnuRules [rootParsedOf stHelp] stHelp.arena0 false [] [] [] =
      { res := .err (.help helpFooStrGnu),
        arena := [argFooStr, { helpArgDef with required := true }], binds := [],
        visited := [0], terminated := false } ∧
    (Run stHelp none).res = .err (.help helpFooStrGnu) ∧
    (Run stHelp none).acts = [] := by
  refine ⟨?_, ?_, ?_, ?_⟩
  · exact C6_amended_help_short_circuit.1 stHelp
      [argFooStr, { helpArgDef with required := true }]
      ⟨["-h"], 0, 0, [], [⟨1, "-h", ""⟩], []⟩ [] ⟨1, "-h", ""⟩ [] rfl (by decide)
      (fun q hq => absurd hq (List.not_mem_nil q))
  · have := C6_amended_help_short_circuit.2.1 stHelp gnuRules (rootParsedOf stHelp)
      [] [] stHelp.arena0 [] []
      ⟨⟨["-h"], 0, 0, [], [⟨1, "-h", ""⟩], []⟩,
        [argFooStr, { helpArgDef with required := true }], false, [],
        some (.help helpFooStrGnu)⟩
      helpFooStrGnu (by decide) (by decide)
    exact this.trans (by decide)
  · exact (C6_amended_help_short_circuit.2.2 stHelp none (.help helpFooStrGnu)
      (by decide)).1
  · exact (C6_amended_help_short_circuit.2.2 stHelp none (.help helpFooStrGnu)
      (by decide)).2.1

/-- Helper: `ReqExt` is reflexive. -/
theorem reqExt_refl (a : List Arg) : ReqExt a a :=
  ⟨rfl, fun _ h => h⟩

/-- Helper: `ReqExt` is transitive. -/
theorem reqExt_trans {a b c : List Arg} (h1 : ReqExt a b) (h2 : ReqExt b c) :
    ReqExt a c :=
  ⟨h2.1.trans h1.1, fun i hi => h2.2 i (h1.2 i hi)⟩

/-- Helper: turning one `required` flag on is a `ReqExt` step. -/
theorem reqExt_set :
    ∀ (a : List Arg) (i : Nat), ReqExt a (a.set i { getArg a i with required := true }) := by
  intro a
  induction a with
  | nil => intro i; cases i <;> exact reqExt_refl _
  | cons x xs ih =>
    intro i
    cases i with
    | zero =>
      refine ⟨?_, ?_⟩
      · simp [stripReq, getArg]
      · intro j _
        cases j with
        | zero => rfl
        | succ j => assumption
    | succ i =>
      have ihh := ih i
      refine ⟨?_, ?_⟩
      · have h1 := ihh.1
        simp only [List.set]
        show (x :: xs.set i _).map stripReq = _
        simp only [List.map_cons]
        rw [show getArg (x :: xs) (i + 1) = getArg xs i from rfl, h1]
      · intro j
        cases j with
        | zero => intro h; exact h
        | succ j =>
          intro h
          exact ihh.2 j h

/-- Helper: the cluster scan extends its arena only by `required`
flags. -/
theorem posixOptLoop_reqext (opt : String) :
    ∀ (cs : List Char) (i : Nat) (rest argStr : String) (parsed : Bool)
      (arena : List Arg) (ctx : PArgCtx),
      ReqExt arena ((posixOptLoop opt cs i rest argStr parsed arena ctx).arena) := by
  intro cs
  induction cs with
  | nil => intro i rest argStr parsed arena ctx; exact reqExt_refl arena
  | cons ch cs ih =>
    intro i rest argStr parsed arena ctx
    simp only [posixOptLoop]
    split
    · split
      · exact reqExt_refl arena
      · split
        · exact reqExt_refl arena
        · split
          · exact reqExt_set arena _
          · exact reqExt_trans (reqExt_set arena _) (ih _ _ _ _ _ _)
    · split
      · exact reqExt_refl arena
      · split
        · exact reqExt_refl arena
        · exact ih _ _ _ _ _ _

/-- Helper: `posixOpt` extends its arena only by `required` flags. -/
theorem arenaPres_posixOpt : ArenaPres posixOpt := by
  intro arena arg i ctx
  simp only [posixOpt]
  split
  · exact reqExt_refl arena
  · exact posixOptLoop_reqext _ _ 0 _ _ false arena ctx

/-- Helper: the `gnuOpt` search loop leaves the arena unchanged. -/
theorem gnuOptFind_arena (arena : List Arg) (arg opt optarg : String) (ctx : PArgCtx) :
    ∀ l : List Nat, (gnuOptFind arena arg opt optarg ctx l).arena = arena := by
  intro l
  induction l with
  | nil => rfl
  | cons ai rest ih =>
    simp only [gnuOptFind]
    split
    · exact ih
    · split
      · rfl
      · split
        · rfl
        · rfl

/-- Helper: every rule of both chains extends its arena only by
`required` flags. -/
theorem gnuRules_arenaPres : ∀ f ∈ gnuRules, ArenaPres f := by
  have hpass : ∀ f : RuleFn, (∀ arena arg i ctx, (f arena arg i ctx).arena = arena) →
      ArenaPres f := by
    intro f h arena arg i ctx
    rw [h]
    exact reqExt_refl arena
  intro f hf
  simp only [gnuRules, List.mem_cons, List.not_mem_nil, or_false] at hf
  rcases hf with h | h | h | h | h | h | h | h <;> subst h
  · refine hpass _ ?_
    intro arena arg i ctx
    simp only [gnuTerminated]
    split <;> rfl
  · refine hpass _ ?_
    intro arena arg i ctx
    simp only [posixTerminated]
    split <;> rfl
  · refine hpass _ ?_
    intro arena arg i ctx
    simp only [validGnuOpt]
    split <;> rfl
  · refine hpass _ ?_
    intro arena arg i ctx
    simp only [gnuOpt]
    split
    · rfl
    · exact gnuOptFind_arena arena arg _ _ ctx _
  · refine hpass _ ?_
    intro arena arg i ctx
    simp only [posixOperand]
    split <;> rfl
  · refine hpass _ ?_
    intro arena arg i ctx
    simp only [gnuOptArg]
    split
    · rfl
    · split
      · rfl
      · split
        · rfl
        · split <;> rfl
  · exact arenaPres_posixOpt
  · refine hpass _ ?_
    intro arena arg i ctx
    simp only [posixOptArg]
    split
    · rfl
    · split <;> rfl

/-- Helper: the POSIX chain as well. -/
theorem posixRules_arenaPres : ∀ f ∈ posixRules, ArenaPres f := by
  intro f hf
  simp only [posixRules, List.mem_cons, List.not_mem_nil, or_false] at hf
  have hgnu := gnuRules_arenaPres
  rcases hf with h | h | h | h | h <;> subst h
  · exact hgnu posixTerminated (by simp [gnuRules])
  · intro arena arg i ctx
    have : (validPosixOpt arena arg i ctx).arena = arena := by
      simp only [validPosixOpt]
      split <;> rfl
    rw [this]
    exact reqExt_refl arena
  · exact arenaPres_posixOpt
  · exact hgnu posixOperand (by simp [gnuRules])
  · exact hgnu posixOptArg (by simp [gnuRules])

/-- Helper: a chain of arena-preserving rules extends its arena only by
`required` flags. -/
theorem runRules_reqext :
    ∀ fs : List RuleFn, (∀ f ∈ fs, ArenaPres f) →
      ∀ (arena : List Arg) (arg : String) (i : Nat) (ctx : PArgCtx),
        ReqExt arena ((runRules arena arg i ctx fs).arena) := by
  intro fs
  induction fs with
  | nil => intro _ arena arg i ctx; exact reqExt_refl arena
  | cons f fs ih =>
    intro hall arena arg i ctx
    simp only [runRules]
    split
    · exact hall f (List.mem_cons_self f fs) arena arg i ctx
    · exact reqExt_trans (hall f (List.mem_cons_self f fs) arena arg i ctx)
        (ih (fun g hg => hall g (List.mem_cons_of_mem f hg)) _ _ i _)

/-- Helper: chaining a `ReqExt` step with a loop outcome relative to the
stepped arena (the crash outcome carries no final arena, so the default
collapses to reflexivity). -/
theorem reqExt_alres_step {a b : List Arg} (h : ReqExt a b) (r : ALoopRes)
    (hrec : ReqExt b (alResArena r b)) : ReqExt a (alResArena r a) := by
  cases r with
  | crashed => exact reqExt_refl a
  | ok c x t => exact reqExt_trans h hrec
  | err e x => exact reqExt_trans h hrec

/-- Helper: the token loop extends its arena only by `required` flags. -/
theorem argLoop_reqext (rules : List RuleFn)
    (hrules : ∀ f ∈ rules, ArenaPres f) (argv : List String) (ci : Nat)
    (cmdArgs : List String) :
    ∀ (toks : List String) (i : Nat) (ctx : PArgCtx) (arena : List Arg) (term : Bool),
      ReqExt arena (alResArena (argLoop rules argv ci cmdArgs toks i ctx arena term) arena) := by
  intro toks
  induction toks with
  | nil => intro i ctx arena term; exact reqExt_refl arena
  | cons tok rest ih =>
    intro i ctx arena term
    simp only [argLoop]
    split
    · exact reqExt_refl arena
    · have hchain := runRules_reqext rules hrules arena tok i ctx
      split
      · split
        · exact reqExt_refl arena
        · split
          · exact reqExt_alres_step hchain _ (ih _ _ _ _)
          · exact hchain
      · exact hchain
      · split
        · exact reqExt_alres_step hchain _ (ih _ _ _ _)
        · exact hchain

/-- Helper: one command's parse-and-bind extends its arena only by
`required` flags. -/
theorem parseArgRulesF_reqext (st : RunnerSt) (rules : List RuleFn)
    (hrules : ∀ f ∈ rules, ArenaPres f) (arena : List Arg) (term : Bool)
    (cmd : ParsedCmd) :
    ReqExt arena (cpResArena (parseArgRulesF st rules arena term cmd) arena) := by
  have h := argLoop_reqext rules hrules st.argv cmd.index cmd.args cmd.args 0
    { argIdxs := (getCmd st cmd.cmddef).argIdxs, last := none, operands := [],
      parsed := [], terminated := false } arena term
  simp only [parseArgRulesF]
  split
  · exact reqExt_refl arena
  · rename_i e arena' heq
    rw [heq] at h
    exact h
  · rename_i ctx arena' term' heq
    rw [heq] at h
    exact h

/-- Helper: the whole parse extends its arena only by `required` flags. -/
theorem parseLoop_reqext (st : RunnerSt) (rules : List RuleFn)
    (hrules : ∀ f ∈ rules, ArenaPres f) :
    ∀ (cmds : List ParsedCmd) (arena : List Arg) (term : Bool)
      (acc : List ParsedCmd) (binds : List BindEv) (vis : List Nat),
      ReqExt arena (parseLoop st rules cmds arena term acc binds vis).arena := by
  intro cmds
  induction cmds with
  | nil => intro arena term acc binds vis; exact reqExt_refl arena
  | cons cmd rest ih =>
    intro arena term acc binds vis
    have hcp := parseArgRulesF_reqext st rules hrules arena term cmd
    simp only [parseLoop]
    split
    · exact reqExt_refl arena
    · split
      · exact reqExt_refl arena
      · rename_i e arena' heq
        rw [heq] at hcp
        exact hcp
      · rename_i out heq
        rw [heq] at hcp
        split
        · exact hcp
        · exact reqExt_trans hcp (ih _ _ _ _ _)

/-- C2 amended: the Command/Argument definition graph is built before
the run and commands are never mutated, but parsing does mutate argument
definitions in one way: the short-option rule (`posixOpt`, part of both
chains) sets a matched definition's `Required` flag to true. Across any
`Run`, every `Arg` field other than `required` is unchanged, and a
`required` flag never turns off. -/
theorem C2_amended_only_required_mutated :
    ∀ (st : RunnerSt) (orc : Option (Nat → Option GoErr)),
      (Run st orc).arena.map stripReq = st.arena0.map stripReq ∧
      ∀ i, (getArg st.arena0 i).required = true →
        (getArg (Run st orc).arena i).required = true := by
  intro st orc
  have hrules : ∀ f ∈ getRules st.style, ArenaPres f := by
    cases st.style
    · exact gnuRules_arenaPres
    · exact posixRules_arenaPres
  have hp := parseLoop_reqext st (getRules st.style) hrules
    (parseCommands st).parsed st.arena0 false [] [] []
  have harena : (Run st orc).arena = (parseOf st).arena := by
    simp only [Run]
    split
    · rfl
    · rfl
    · split <;> rfl
  rw [harena]
  exact ⟨hp.1, hp.2⟩

/-- C2 amended, witness: on the `stC5run` run (whose argument 0 is
declared required), the non-`required` fields survive and the `required`
flag persists. -/
theorem C2_amended_only_required_mutated_witness :
    (Run stC5run none).arena.map stripReq = stC5run.arena0.map stripReq ∧
    (getArg (Run stC5run none).arena 0).required = true :=
  ⟨(C2_amended_only_required_mutated stC5run none).1,
    (C2_amended_only_required_mutated stC5run none).2 0 (by decide)⟩

end Clapr
